import Mathlib

/-!
# Verification of the `manta-rs` transfer protocol core

A shallow embedding of `manta-accounting/src/transfer/mod.rs`: the transfer
shape predicates, the `Transfer` builder, the validity-constraint circuit
builder, the `TransferPost` artifact with its validation pipeline, the posting
phase, the proof-input folding, and the identity proof.

Collaborator cryptography (signature verification, nullifier/UTXO relatedness,
ledger account checks, the proof system) is abstracted as function parameters,
exactly as the Rust code consumes it through trait bounds.  Stateful circuit
building and ledger interaction are embedded as pure functions that also return
the list of emitted constraints or performed ledger calls, so that ordering
properties are provable.  Rust panics are embedded as `Option`/`none`.
-/

/-! ## Shape predicates (`mod.rs` lines 79-101) -/

/-- `has_public_participants(sources, sinks)`: the shape has public participants. -/
def has_public_participants (sources sinks : Nat) : Bool :=
  decide ((sources + sinks) > 0)

/-- `has_secret_participants(senders, receivers)`: the shape has secret participants. -/
def has_secret_participants (senders receivers : Nat) : Bool :=
  decide ((senders + receivers) > 0)

/-- `requires_authorization(senders)`: the shape requires an authorization. -/
def requires_authorization (senders : Nat) : Bool :=
  decide (senders > 0)

/-- `has_sinks(sinks)`: the shape has sinks. -/
def has_sinks (sinks : Nat) : Bool :=
  decide (sinks > 0)

/-! ## The `Transfer` aggregate (`mod.rs` lines 499-623)

The compile-time arity constants `SOURCES`, `SENDERS`, `RECEIVERS`, `SINKS`
become the lengths of the corresponding lists.  `A` is the authorization type,
`Id` the asset-id type, `V` the asset-value type, `S` the sender type and `R`
the receiver type of the `Configuration`. -/

structure Transfer (A Id V S R : Type) where
  authorization : Option A
  asset_id : Option Id
  sources : List V
  senders : List S
  receivers : List R
  sinks : List V

/-- `Transfer::has_nonempty_input_shape`: `assert_ne!(SOURCES + SENDERS, 0)`,
`true` when the assert passes. -/
def Transfer.has_nonempty_input_shape (sources senders : Nat) : Bool :=
  decide (sources + senders ≠ 0)

/-- `Transfer::has_nonempty_output_shape`: `assert_ne!(RECEIVERS + SINKS, 0)`,
`true` when the assert passes. -/
def Transfer.has_nonempty_output_shape (receivers sinks : Nat) : Bool :=
  decide (receivers + sinks ≠ 0)

/-- `Transfer::has_authorization_when_required`: authorization must be present
exactly when `requires_authorization(SENDERS)`; `true` when the asserts pass. -/
def Transfer.has_authorization_when_required (senders : Nat) (has_authorization : Bool) : Bool :=
  if requires_authorization senders then has_authorization else !has_authorization

/-- `Transfer::has_visible_asset_id_when_required`: the public asset id must be
present exactly when `has_public_participants(SOURCES, SINKS)`; `true` when the
asserts pass. -/
def Transfer.has_visible_asset_id_when_required
    (sources sinks : Nat) (has_visible_asset_id : Bool) : Bool :=
  if has_public_participants sources sinks then has_visible_asset_id else !has_visible_asset_id

/-- `Transfer::check_shape`: the four shape asserts in sequence; `true` when no
assert panics. -/
def Transfer.check_shape
    (sources senders receivers sinks : Nat)
    (has_authorization has_visible_asset_id : Bool) : Bool :=
  Transfer.has_nonempty_input_shape sources senders
    && Transfer.has_nonempty_output_shape receivers sinks
    && Transfer.has_authorization_when_required senders has_authorization
    && Transfer.has_visible_asset_id_when_required sources sinks has_visible_asset_id

/-- `Transfer::new_unchecked`: stores the fields unchanged. -/
def Transfer.new_unchecked {A Id V S R : Type}
    (authorization : Option A) (asset_id : Option Id)
    (sources : List V) (senders : List S) (receivers : List R) (sinks : List V) :
    Transfer A Id V S R :=
  { authorization, asset_id, sources, senders, receivers, sinks }

/-- `Transfer::new`: runs `check_shape` then `new_unchecked`; `none` embeds the
panic of a failed shape assert. -/
def Transfer.new {A Id V S R : Type}
    (authorization : Option A) (asset_id : Option Id)
    (sources : List V) (senders : List S) (receivers : List R) (sinks : List V) :
    Option (Transfer A Id V S R) :=
  if Transfer.check_shape sources.length senders.length receivers.length sinks.length
      authorization.isSome asset_id.isSome then
    some (Transfer.new_unchecked authorization asset_id sources senders receivers sinks)
  else
    none

/-! ## The validity-constraint builder (`mod.rs` lines 853-983)

`TransferVar` carries in-circuit variables; we model `C::AssetValueVar`
directly by a value type `V` with an `Add` instance (the in-circuit `Add::add`)
and `C::AssetIdVar` by `Id`.  A sender or receiver variable is abstracted by
the asset (`id`, `value`) that its `well_formed_asset` sub-circuit yields; the
well-formedness sub-circuits themselves are collaborator cryptography and show
up as opaque emitted constraints. -/

structure SenderVar (Id V : Type) where
  asset_id : Id
  asset_value : V

structure ReceiverVar (Id V : Type) where
  asset_id : Id
  asset_value : V

/-- One constraint emitted into the compiler by `build_validity_constraints`:
the authorization check, the per-sender and per-receiver well-formedness
sub-circuits, the value-sum equality (`assert_eq`), and the asset-id equality
(`assert_all_eq_to_base` / `assert_all_eq`). -/
inductive Constraint (Id V : Type) where
  | authorized
  | senderWellFormed
  | receiverWellFormed
  | valEq (lhs rhs : V)
  | allEqToBase (base : Id) (ids : List Id)
  | allEq (ids : List Id)
deriving DecidableEq

/-- `TransferVar::value_sum`: `iter.reduce(|l, r| Add::add(l, r)).unwrap()`;
`none` embeds the `unwrap` panic on an empty iterator. -/
def TransferVar.value_sum {V : Type} [Add V] : List V → Option V
  | [] => none
  | x :: xs => some (xs.foldl (· + ·) x)

/-- `TransferVar::input_sum`: with an authorization, asserts it authorized,
collects each sender's well-formed asset id and value, and sums the sender
values chained with the public sources; without one, sums the sources only.
Returns the sum (`none` on panic), the emitted constraints, and the collected
secret asset ids, in emission order. -/
def TransferVar.input_sum {A Id V : Type} [Add V]
    (authorization : Option A) (senders : List (SenderVar Id V)) (sources : List V) :
    Option V × List (Constraint Id V) × List Id :=
  match authorization with
  | some _ =>
      (TransferVar.value_sum ((senders.map SenderVar.asset_value) ++ sources),
        Constraint.authorized :: senders.map (fun _ => Constraint.senderWellFormed),
        senders.map SenderVar.asset_id)
  | none => (TransferVar.value_sum sources, [], [])

/-- `TransferVar::output_sum`: collects each receiver's well-formed asset id and
value and sums the receiver values chained with the public sinks. -/
def TransferVar.output_sum {Id V : Type} [Add V]
    (receivers : List (ReceiverVar Id V)) (sinks : List V) :
    Option V × List (Constraint Id V) × List Id :=
  (TransferVar.value_sum ((receivers.map ReceiverVar.asset_value) ++ sinks),
    receivers.map (fun _ => Constraint.receiverWellFormed),
    receivers.map ReceiverVar.asset_id)

/-- `TransferVar::build_validity_constraints`: computes the input and output
sums, asserts their equality, and asserts the collected secret asset ids all
equal to the public asset id when one exists, otherwise pairwise equal.
Returns the emitted constraint list in order; `none` embeds the
`reduce().unwrap()` panic. -/
def TransferVar.build_validity_constraints {A Id V : Type} [Add V]
    (authorization : Option A) (asset_id : Option Id)
    (sources : List V) (senders : List (SenderVar Id V))
    (receivers : List (ReceiverVar Id V)) (sinks : List V) :
    Option (List (Constraint Id V)) :=
  match TransferVar.input_sum authorization senders sources,
        TransferVar.output_sum receivers sinks with
  | (some input_sum, input_constraints, input_ids),
    (some output_sum, output_constraints, output_ids) =>
      some (input_constraints ++ output_constraints
        ++ [Constraint.valEq input_sum output_sum]
        ++ [match asset_id with
            | some base => Constraint.allEqToBase base (input_ids ++ output_ids)
            | none => Constraint.allEq (input_ids ++ output_ids)])
  | _, _ => none

/-! ## Post artifacts (`mod.rs` lines 1405-1713)

`N` is the nullifier type, `Output` the UTXO-accumulator-output type, `U` the
UTXO type, `Pf` the proof type, `AK` the authorization-key type, `SigV` the
raw signature type and `Acct` the account-id type. -/

structure SenderPost (N Output : Type) where
  nullifier : N
  utxo_accumulator_output : Output

structure ReceiverPost (U : Type) where
  utxo : U

structure AuthorizationSignature (AK SigV : Type) where
  authorization_key : AK
  signature : SigV

structure TransferPostBody (Id V N Output U Pf : Type) where
  asset_id : Option Id
  sources : List V
  sender_posts : List (SenderPost N Output)
  receiver_posts : List (ReceiverPost U)
  sinks : List V
  proof : Pf

/-- `TransferPostBody::build`: converts the transfer's senders and receivers
into posts (via the collaborator `Sender::into_post` / `Receiver::into_post`,
passed as `sender_into_post` / `receiver_into_post`) and stores the other
fields unchanged. -/
def TransferPostBody.build {Id V S R N Output U Pf : Type}
    (sender_into_post : S → SenderPost N Output)
    (receiver_into_post : R → ReceiverPost U)
    (proof : Pf) (asset_id : Option Id)
    (sources : List V) (senders : List S) (receivers : List R) (sinks : List V) :
    TransferPostBody Id V N Output U Pf :=
  { asset_id
    sources
    sender_posts := senders.map sender_into_post
    receiver_posts := receivers.map receiver_into_post
    sinks
    proof }

structure TransferPost (Acct Id V N Output U Pf AK SigV : Type) where
  authorization_signature : Option (AuthorizationSignature AK SigV)
  body : TransferPostBody Id V N Output U Pf
  sink_accounts : List Acct

/-- `TransferPost::new_unchecked_with_sinks`: stores all three fields. -/
def TransferPost.new_unchecked_with_sinks {Acct Id V N Output U Pf AK SigV : Type}
    (authorization_signature : Option (AuthorizationSignature AK SigV))
    (body : TransferPostBody Id V N Output U Pf)
    (sink_accounts : List Acct) :
    TransferPost Acct Id V N Output U Pf AK SigV :=
  { authorization_signature, body, sink_accounts }

/-- `TransferPost::new_unchecked`: like `new_unchecked_with_sinks` with an empty
sink-account list. -/
def TransferPost.new_unchecked {Acct Id V N Output U Pf AK SigV : Type}
    (authorization_signature : Option (AuthorizationSignature AK SigV))
    (body : TransferPostBody Id V N Output U Pf) :
    TransferPost Acct Id V N Output U Pf AK SigV :=
  TransferPost.new_unchecked_with_sinks authorization_signature body []

/-! ## `Transfer::into_post` (`mod.rs` lines 738-788)

The proof system's outcome for this transfer is the parameter `prove` (an
`Err` embeds a proof-system failure); `sign` is `auth::sign` over the signed
payload `BodyWithAccountsRef(body, sink_accounts)`, returning `none` when the
authorization is invalid. -/

def Transfer.into_post {A Id V S R K E N Output U Pf AK SigV Acct : Type}
    (sender_into_post : S → SenderPost N Output)
    (receiver_into_post : R → ReceiverPost U)
    (prove : Except E Pf)
    (sign : K → A → TransferPostBody Id V N Output U Pf → List Acct →
      Option (AuthorizationSignature AK SigV))
    (t : Transfer A Id V S R)
    (spending_key : Option K)
    (sink_accounts : List Acct) :
    Except E (Option (TransferPost Acct Id V N Output U Pf AK SigV)) :=
  match requires_authorization t.senders.length, t.authorization, spending_key with
  | true, some authorization, some spending_key =>
      match prove with
      | .error e => .error e
      | .ok proof =>
          let body := TransferPostBody.build sender_into_post receiver_into_post
            proof t.asset_id t.sources t.senders t.receivers t.sinks
          match sign spending_key authorization body sink_accounts with
          | some authorization_signature =>
              if has_sinks t.sinks.length then
                .ok (some (TransferPost.new_unchecked_with_sinks
                  (some authorization_signature) body sink_accounts))
              else
                .ok (some (TransferPost.new_unchecked (some authorization_signature) body))
          | none => .ok none
  | false, none, none =>
      match prove with
      | .error e => .error e
      | .ok proof =>
          .ok (some (TransferPost.new_unchecked none
            (TransferPostBody.build sender_into_post receiver_into_post
              proof t.asset_id t.sources t.senders t.receivers t.sinks)))
  | _, _, _ => .ok none

/-! ## Authorization-signature validation (`mod.rs` lines 1169-1185, 1764-1786) -/

inductive InvalidAuthorizationSignature where
  | invalidShape
  | missingSignature
  | badSignature
deriving DecidableEq

/-- `TransferPost::has_valid_authorization_signature`: matches on the presence
of the signature against `requires_authorization(sender_posts.len())`; `verify`
is the collaborator signature verification over the signed payload
`BodyWithAccountsRef(body, sink_accounts)`. -/
def TransferPost.has_valid_authorization_signature {Acct Id V N Output U Pf AK SigV : Type}
    (verify : AuthorizationSignature AK SigV → TransferPostBody Id V N Output U Pf →
      List Acct → Bool)
    (post : TransferPost Acct Id V N Output U Pf AK SigV) :
    Except InvalidAuthorizationSignature Unit :=
  match post.authorization_signature, requires_authorization post.body.sender_posts.length with
  | some authorization_signature, true =>
      if verify authorization_signature post.body post.sink_accounts then
        .ok ()
      else
        .error InvalidAuthorizationSignature.badSignature
  | some _, false => .error InvalidAuthorizationSignature.invalidShape
  | none, true => .error InvalidAuthorizationSignature.missingSignature
  | none, false => .ok ()

/-! ## Ledger validation (`mod.rs` lines 1187-1348, 1792-1895)

The `TransferLedger` trait is the external contract; we model one ledger as a
bundle of oracle functions.  `validate` additionally returns the ordered list
of ledger calls it performed, so that "before any ledger access" claims are
provable.  `SE`, `RE`, `LE` are the sender-, receiver- and transfer-ledger
error types; `VSrc`, `VSink`, `SK`, `RK`, `PK`, `Ev` are the
validated-source/sink, sender/receiver posting-key, valid-proof and event
types. -/

structure InvalidSourceAccount (Acct Id V : Type) where
  account_id : Acct
  asset_id : Id
  withdraw : V

structure InvalidSinkAccount (Acct Id V : Type) where
  account_id : Acct
  asset_id : Id
  deposit : V

/-- `TransferPostError` (`mod.rs` lines 1309-1348). -/
inductive TransferPostError (Acct Id V SE RE LE : Type) where
  | invalidShape
  | invalidAuthorizationSignature (e : InvalidAuthorizationSignature)
  | invalidSourceAccount (e : InvalidSourceAccount Acct Id V)
  | invalidSinkAccount (e : InvalidSinkAccount Acct Id V)
  | sender (e : SE)
  | receiver (e : RE)
  | duplicateSpend
  | duplicateMint
  | invalidProof
  | unexpectedError (e : LE)

/-- `TransferPostingKeyRef` (`mod.rs` lines 2126-2151). -/
structure TransferPostingKeyRef (AK Id VSrc SK RK VSink Pf : Type) where
  authorization_key : Option AK
  asset_id : Option Id
  sources : List VSrc
  senders : List SK
  receivers : List RK
  sinks : List VSink
  proof : Pf

/-- `TransferPostingKey` (`mod.rs` lines 2025-2050). -/
structure TransferPostingKey (Id VSrc SK RK VSink PK Ev : Type) where
  asset_id : Option Id
  source_posting_keys : List VSrc
  sender_posting_keys : List SK
  receiver_posting_keys : List RK
  sink_posting_keys : List VSink
  proof : PK
  event : Ev

/-- One call to a `TransferLedger` method performed during `validate`. -/
inductive LedgerCall where
  | checkSourceAccounts
  | checkSinkAccounts
  | validateSender
  | validateReceiver
  | isValid
deriving DecidableEq

/-- The `TransferLedger` contract as a bundle of oracles.  `validate_sender` and
`validate_receiver` are the `SenderPost::validate` / `ReceiverPost::validate`
sub-protocols; `into_post_error` is the `Into<TransferPostError>` conversion
required of `TransferLedger::Error` and applied to `is_valid` failures. -/
structure TransferLedger (Acct Id V N Output U Pf AK SE RE LE VSrc VSink SK RK PK Ev : Type) where
  check_source_accounts :
    Id → List (Acct × V) → Except (InvalidSourceAccount Acct Id V) (List VSrc)
  check_sink_accounts :
    Id → List (Acct × V) → Except (InvalidSinkAccount Acct Id V) (List VSink)
  validate_sender : SenderPost N Output → Except SE SK
  validate_receiver : ReceiverPost U → Except RE RK
  is_valid : TransferPostingKeyRef AK Id VSrc SK RK VSink Pf → Except LE (PK × Ev)
  into_post_error : LE → TransferPostError Acct Id V SE RE LE

/-- Modelled from the spec: `all_unequal` from `manta-util` (code of this
repository not under `src/`); it returns `true` exactly when no two distinct
elements of the slice are related by the binary check `eq`. -/
def all_unequal {T : Type} (l : List T) (eq : T → T → Bool) : Bool :=
  match l with
  | [] => true
  | x :: xs => xs.all (fun y => !(eq x y)) && all_unequal xs eq

/-- `TransferPost::check_public_participants` (`mod.rs` lines 1792-1831): the
three shape checks, then the delegated source- and sink-account ledger checks
(each performed only when the corresponding side is non-empty).  Also returns
the ledger calls performed. -/
def TransferPost.check_public_participants
    {Acct Id V N Output U Pf AK SE RE LE VSrc VSink SK RK PK Ev : Type}
    (L : TransferLedger Acct Id V N Output U Pf AK SE RE LE VSrc VSink SK RK PK Ev)
    (asset_id : Option Id)
    (source_accounts : List Acct) (source_values : List V)
    (sink_accounts : List Acct) (sink_values : List V) :
    Except (TransferPostError Acct Id V SE RE LE) (List VSrc × List VSink) × List LedgerCall :=
  let sources := source_values.length
  let sinks := sink_values.length
  if has_public_participants sources sinks ≠ asset_id.isSome then
    (.error TransferPostError.invalidShape, [])
  else if source_accounts.length ≠ sources then
    (.error TransferPostError.invalidShape, [])
  else if sink_accounts.length ≠ sinks then
    (.error TransferPostError.invalidShape, [])
  else
    match asset_id with
    | some asset_id =>
        match
          (if sources > 0 then
            match L.check_source_accounts asset_id (source_accounts.zip source_values) with
            | .ok valid_sources => (Except.ok valid_sources, [LedgerCall.checkSourceAccounts])
            | .error e =>
                (Except.error (TransferPostError.invalidSourceAccount e),
                  [LedgerCall.checkSourceAccounts])
          else (Except.ok [], []))
        with
        | (.error e, log) => (.error e, log)
        | (.ok valid_sources, source_log) =>
            match
              (if sinks > 0 then
                match L.check_sink_accounts asset_id (sink_accounts.zip sink_values) with
                | .ok valid_sinks => (Except.ok valid_sinks, [LedgerCall.checkSinkAccounts])
                | .error e =>
                    (Except.error (TransferPostError.invalidSinkAccount e),
                      [LedgerCall.checkSinkAccounts])
              else (Except.ok [], []))
            with
            | (.error e, log) => (.error e, source_log ++ log)
            | (.ok valid_sinks, sink_log) =>
                (.ok (valid_sources, valid_sinks), source_log ++ sink_log)
    | none =>
        -- With no public asset id the first shape check forces
        -- `sources = sinks = 0`, so neither ledger check runs and the Rust
        -- `asset_id.as_ref().unwrap()` calls are unreachable.
        (.ok ([], []), [])

/-- The `.map(|x| x.validate(ledger)).collect::<Result<Vec<_>, _>>()` pattern of
`TransferPost::validate`: validates each element in order, stopping at the
first error, and logs one ledger call per attempted element. -/
def validate_all {T κ ε : Type} (f : T → Except ε κ) (call : LedgerCall) :
    List T → Except ε (List κ) × List LedgerCall
  | [] => (.ok [], [])
  | x :: xs =>
      match f x with
      | .error e => (.error e, [call])
      | .ok y =>
          match validate_all f call xs with
          | (.error e, log) => (.error e, call :: log)
          | (.ok ys, log) => (.ok (y :: ys), call :: log)

/-- `TransferPost::validate` (`mod.rs` lines 1836-1895): authorization
signature, public participants, duplicate-spend and duplicate-mint checks,
sender and receiver sub-protocol validation, and the single `is_valid` proof
check; packages the results into a `TransferPostingKey`.  `nullifier_related`
and `utxo_related` are the collaborator `Independence` relatedness checks.
Also returns the ordered ledger calls. -/
def TransferPost.validate
    {Acct Id V N Output U Pf AK SigV SE RE LE VSrc VSink SK RK PK Ev : Type}
    (verify : AuthorizationSignature AK SigV → TransferPostBody Id V N Output U Pf →
      List Acct → Bool)
    (nullifier_related : N → N → Bool)
    (utxo_related : U → U → Bool)
    (L : TransferLedger Acct Id V N Output U Pf AK SE RE LE VSrc VSink SK RK PK Ev)
    (post : TransferPost Acct Id V N Output U Pf AK SigV)
    (source_accounts : List Acct) (sink_accounts : List Acct) :
    Except (TransferPostError Acct Id V SE RE LE)
      (TransferPostingKey Id VSrc SK RK VSink PK Ev) × List LedgerCall :=
  match TransferPost.has_valid_authorization_signature verify post with
  | .error e => (.error (TransferPostError.invalidAuthorizationSignature e), [])
  | .ok _ =>
      match TransferPost.check_public_participants L post.body.asset_id
        source_accounts post.body.sources sink_accounts post.body.sinks with
      | (.error e, log) => (.error e, log)
      | (.ok (source_posting_keys, sink_posting_keys), participants_log) =>
          if !(all_unequal post.body.sender_posts
              (fun p q => nullifier_related p.nullifier q.nullifier)) then
            (.error TransferPostError.duplicateSpend, participants_log)
          else if !(all_unequal post.body.receiver_posts
              (fun p q => utxo_related p.utxo q.utxo)) then
            (.error TransferPostError.duplicateMint, participants_log)
          else
            match validate_all L.validate_sender LedgerCall.validateSender
              post.body.sender_posts with
            | (.error e, log) =>
                (.error (TransferPostError.sender e), participants_log ++ log)
            | (.ok sender_posting_keys, senders_log) =>
                match validate_all L.validate_receiver LedgerCall.validateReceiver
                  post.body.receiver_posts with
                | (.error e, log) =>
                    (.error (TransferPostError.receiver e),
                      participants_log ++ senders_log ++ log)
                | (.ok receiver_posting_keys, receivers_log) =>
                    match L.is_valid
                      { authorization_key :=
                          post.authorization_signature.map
                            AuthorizationSignature.authorization_key
                        asset_id := post.body.asset_id
                        sources := source_posting_keys
                        senders := sender_posting_keys
                        receivers := receiver_posting_keys
                        sinks := sink_posting_keys
                        proof := post.body.proof } with
                    | .error e =>
                        (.error (L.into_post_error e),
                          participants_log ++ senders_log ++ receivers_log
                            ++ [LedgerCall.isValid])
                    | .ok (proof, event) =>
                        (.ok
                          { asset_id := post.body.asset_id
                            source_posting_keys
                            sender_posting_keys
                            receiver_posting_keys
                            sink_posting_keys
                            proof
                            event },
                          participants_log ++ senders_log ++ receivers_log
                            ++ [LedgerCall.isValid])

/-! ## The posting (mutation) phase (`mod.rs` lines 2052-2088) -/

/-- One ledger mutation performed during `TransferPostingKey::post`. -/
inductive MutationCall (Id VSrc VSink SK RK PK : Type) where
  | spend (key : SK)
  | register (key : RK)
  | updatePublicBalances (asset_id : Id) (sources : List VSrc) (sinks : List VSink) (proof : PK)

/-- `true` exactly on an `updatePublicBalances` mutation. -/
def MutationCall.isUpdatePublicBalances {Id VSrc VSink SK RK PK : Type} :
    MutationCall Id VSrc VSink SK RK PK → Bool
  | .updatePublicBalances _ _ _ _ => true
  | _ => false

/-- The mutation half of the `TransferLedger` contract (`SenderLedger::spend`,
`ReceiverLedger::register` as reached through the posting keys, and
`update_public_balances`); each method receives the valid-proof marker as in
the `(proof, super_key)` super-posting-key pairs. -/
structure MutationLedger (Id VSrc VSink SK RK PK LE : Type) where
  spend : PK → SK → Except LE Unit
  register : PK → RK → Except LE Unit
  update_public_balances : Id → List VSrc → List VSink → PK → Except LE Unit

/-- Modelled from the spec: `SenderPostingKey::post_all` and
`ReceiverPostingKey::post_all` from the `sender`/`receiver` modules (code of
this repository not under `src/`); they post each key in order, stopping at the
first ledger error.  Returns the result and the mutation calls performed. -/
def post_all {κ ε μ : Type} (f : κ → Except ε Unit) (call : κ → μ) :
    List κ → Except ε Unit × List μ
  | [] => (.ok (), [])
  | k :: ks =>
      match f k with
      | .error e => (.error e, [call k])
      | .ok _ =>
          match post_all f call ks with
          | (r, log) => (r, call k :: log)

/-- `TransferPostingKey::post` (`mod.rs` lines 2064-2088): posts all sender
posting keys, then all receiver posting keys, then — when a public asset id
exists — calls `update_public_balances` with the validated source and sink
tokens and the valid-proof marker; on success returns the event captured at
validation.  Also returns the ordered mutation calls. -/
def TransferPostingKey.post {Id VSrc VSink SK RK PK Ev LE : Type}
    (L : MutationLedger Id VSrc VSink SK RK PK LE)
    (k : TransferPostingKey Id VSrc SK RK VSink PK Ev) :
    Except LE Ev × List (MutationCall Id VSrc VSink SK RK PK) :=
  let proof := k.proof
  match post_all (L.spend proof) MutationCall.spend k.sender_posting_keys with
  | (.error e, log) => (.error e, log)
  | (.ok _, spend_log) =>
      match post_all (L.register proof) MutationCall.register k.receiver_posting_keys with
      | (.error e, log) => (.error e, spend_log ++ log)
      | (.ok _, register_log) =>
          match k.asset_id with
          | some asset_id =>
              match L.update_public_balances asset_id
                k.source_posting_keys k.sink_posting_keys proof with
              | .error e =>
                  (.error e, spend_log ++ register_log
                    ++ [MutationCall.updatePublicBalances asset_id
                          k.source_posting_keys k.sink_posting_keys proof])
              | .ok _ =>
                  (.ok k.event, spend_log ++ register_log
                    ++ [MutationCall.updatePublicBalances asset_id
                          k.source_posting_keys k.sink_posting_keys proof])
          | none => (.ok k.event, spend_log ++ register_log)

/-! ## Proof-system public input folding (`mod.rs` lines 796-817, 1570-1592,
1938-1945, 2176-2202)

Each `C::ProofSystem::extend(input, x)` appends the public-input contribution
of one component; we record the contributions as tagged items so that the
folding order is observable.  `Snd` and `Rcv` are the sender- and
receiver-side payload types (which differ between the prover-side `Transfer`
and the verifier-side posts). -/

inductive PIItem (AK Id V Snd Rcv : Type) where
  | authKey (key : AK)
  | assetId (id : Id)
  | source (value : V)
  | sender (payload : Snd)
  | receiver (payload : Rcv)
  | sink (value : V)

/-- The folding order stated by the spec: authorization key (if present), asset
id (if present), sources, senders, receivers, sinks. -/
def canonical_input {AK Id V Snd Rcv : Type}
    (authorization_key : Option AK) (asset_id : Option Id)
    (sources : List V) (senders : List Snd) (receivers : List Rcv) (sinks : List V) :
    List (PIItem AK Id V Snd Rcv) :=
  (authorization_key.map PIItem.authKey).toList
    ++ (asset_id.map PIItem.assetId).toList
    ++ sources.map PIItem.source
    ++ senders.map PIItem.sender
    ++ receivers.map PIItem.receiver
    ++ sinks.map PIItem.sink

/-- `impl Input for Transfer :: extend` (`mod.rs` lines 796-817): the
prover-side folding; `field_get` is `Field::get`, extracting the authorization
key from the authorization. -/
def Transfer.extendInput {A Id V S R AK : Type} (field_get : A → AK)
    (t : Transfer A Id V S R) : List (PIItem AK Id V S R) :=
  (match t.authorization with
   | some authorization => [PIItem.authKey (field_get authorization)]
   | none => [])
    ++ (match t.asset_id with
        | some asset_id => [PIItem.assetId asset_id]
        | none => [])
    ++ t.sources.map PIItem.source
    ++ t.senders.map PIItem.sender
    ++ t.receivers.map PIItem.receiver
    ++ t.sinks.map PIItem.sink

/-- `impl Input for TransferPostBody :: extend` (`mod.rs` lines 1570-1592). -/
def TransferPostBody.extendInput {Id V N Output U Pf AK : Type}
    (b : TransferPostBody Id V N Output U Pf) :
    List (PIItem AK Id V (SenderPost N Output) (ReceiverPost U)) :=
  (match b.asset_id with
   | some asset_id => [PIItem.assetId asset_id]
   | none => [])
    ++ b.sources.map PIItem.source
    ++ b.sender_posts.map PIItem.sender
    ++ b.receiver_posts.map PIItem.receiver
    ++ b.sinks.map PIItem.sink

/-- `impl Input for TransferPost :: extend` (`mod.rs` lines 1938-1945): the
authorization key of the signature (if present), then the body. -/
def TransferPost.extendInput {Acct Id V N Output U Pf AK SigV : Type}
    (post : TransferPost Acct Id V N Output U Pf AK SigV) :
    List (PIItem AK Id V (SenderPost N Output) (ReceiverPost U)) :=
  (match post.authorization_signature with
   | some s => [PIItem.authKey s.authorization_key]
   | none => [])
    ++ post.body.extendInput

/-- `impl Input for TransferPostingKeyRef :: extend` (`mod.rs` lines
2181-2202): the verifier-side folding used by ledger implementations;
`source_as_ref` and `sink_as_ref` are the `AsRef<C::AssetValue>` views of the
validated account tokens. -/
def TransferPostingKeyRef.extendInput {AK Id VSrc SK RK VSink Pf V : Type}
    (source_as_ref : VSrc → V) (sink_as_ref : VSink → V)
    (ref : TransferPostingKeyRef AK Id VSrc SK RK VSink Pf) :
    List (PIItem AK Id V SK RK) :=
  (match ref.authorization_key with
   | some key => [PIItem.authKey key]
   | none => [])
    ++ (match ref.asset_id with
        | some asset_id => [PIItem.assetId asset_id]
        | none => [])
    ++ ref.sources.map (fun s => PIItem.source (source_as_ref s))
    ++ ref.senders.map PIItem.sender
    ++ ref.receivers.map PIItem.receiver
    ++ ref.sinks.map (fun s => PIItem.sink (sink_as_ref s))

/-! ## Identity proof (`mod.rs` lines 2204-2361) -/

/-- Modelled from the spec: the canonical transfer shapes of the `canonical`
module (code of this repository not under `src/`); `identity_verification`
only distinguishes the ToPublic (private-to-public) shape, "a transfer shape
with private senders and exactly one public sink". -/
inductive TransferShape where
  | privateTransfer
  | toPrivate
  | toPublic
deriving DecidableEq

/-- `IdentityVerificationError` (`mod.rs` lines 2212-2230). -/
inductive IdentityVerificationError where
  | invalidSignature
  | invalidShape
  | invalidProof
  | inconsistentUtxoAccumulatorOutput
  | invalidVirtualAsset
  | invalidSinkAccount
deriving DecidableEq

/-- An `IdentifiedAsset`: an identifier together with an asset. -/
structure IdentifiedAsset (Idf Asset : Type) where
  identifier : Idf
  asset : Asset

/-- `TransferPost::has_valid_proof` (`mod.rs` lines 1737-1746): verifies the
proof of the body against the generated public input; `ps_verify` is
`C::ProofSystem::verify`, which can itself fail (`PE`). -/
def TransferPost.has_valid_proof {Acct Id V N Output U Pf AK SigV PE : Type}
    (ps_verify : List (PIItem AK Id V (SenderPost N Output) (ReceiverPost U)) →
      Pf → Except PE Bool)
    (post : TransferPost Acct Id V N Output U Pf AK SigV) : Except PE Bool :=
  ps_verify post.extendInput post.body.proof

/-- `IdentityProof::identity_verification` (`mod.rs` lines 2290-2360): the five
checks in order.  `from_post` is `TransferShape::from_post`; `verify` the
authorization-signature verification; `ps_verify` the proof-system
verification; `utxo_reconstruct` the parameters' UTXO reconstruction;
`item_hash` the accumulator item hash; `fresh_output` the composition of
inserting the item alone into a fresh accumulator and reading back its
`output_from` (whose `expect` always succeeds on the just-inserted item). -/
def identity_verification
    {Acct Id V N Output U Pf AK SigV PE Idf Asset Addr Utxo Item : Type}
    [DecidableEq Acct] [DecidableEq Output]
    (from_post : TransferPost Acct Id V N Output U Pf AK SigV → Option TransferShape)
    (verify : AuthorizationSignature AK SigV → TransferPostBody Id V N Output U Pf →
      List Acct → Bool)
    (ps_verify : List (PIItem AK Id V (SenderPost N Output) (ReceiverPost U)) →
      Pf → Except PE Bool)
    (utxo_reconstruct : Asset → Idf → Addr → Utxo)
    (item_hash : Utxo → Item)
    (fresh_output : Item → Output)
    (transfer_post : TransferPost Acct Id V N Output U Pf AK SigV)
    (virtual_asset : IdentifiedAsset Idf Asset)
    (address : Addr)
    (public_account : Acct) :
    Except IdentityVerificationError Unit :=
  match
    (match from_post transfer_post with
     | none => Except.error IdentityVerificationError.invalidShape
     | some shape =>
         match shape with
         | TransferShape.toPublic => Except.ok ()
         | _ => Except.error IdentityVerificationError.invalidShape :
      Except IdentityVerificationError Unit)
  with
  | .error e => .error e
  | .ok _ =>
      if transfer_post.sink_accounts ≠ [public_account] then
        .error IdentityVerificationError.invalidSinkAccount
      else
        match TransferPost.has_valid_authorization_signature verify transfer_post with
        | .error _ => .error IdentityVerificationError.invalidSignature
        | .ok _ =>
            match TransferPost.has_valid_proof ps_verify transfer_post with
            | .error _ => .error IdentityVerificationError.invalidProof
            | .ok verified =>
                if !verified then
                  .error IdentityVerificationError.invalidProof
                else
                  let utxo := utxo_reconstruct virtual_asset.asset
                    virtual_asset.identifier address
                  let utxo_accumulator_output := fresh_output (item_hash utxo)
                  if !(transfer_post.body.sender_posts.any
                      (fun sender_post =>
                        decide (sender_post.utxo_accumulator_output
                          = utxo_accumulator_output))) then
                    .error IdentityVerificationError.inconsistentUtxoAccumulatorOutput
                  else
                    .ok ()

/-! ## Concrete instances used to evaluate the model on closed inputs -/

/-- A concrete `TransferLedger` over `Nat` data whose checks all succeed. -/
def okLedger : TransferLedger Nat Nat Nat Nat Nat Nat Nat Nat Unit Unit Unit Nat Nat Nat Nat Nat Nat where
  check_source_accounts := fun _ pairs => .ok (pairs.map Prod.snd)
  check_sink_accounts := fun _ pairs => .ok (pairs.map Prod.snd)
  validate_sender := fun _ => .ok 0
  validate_receiver := fun _ => .ok 0
  is_valid := fun _ => .ok (0, 0)
  into_post_error := fun _ => .unexpectedError ()

/-- A concrete `TransferPost` with one public source and two sender posts
carrying equal (hence related) nullifiers. -/
def dupPost : TransferPost Nat Nat Nat Nat Nat Nat Nat Nat Nat where
  authorization_signature := some { authorization_key := 0, signature := 0 }
  body :=
    { asset_id := some 0
      sources := [5]
      sender_posts := [{ nullifier := 1, utxo_accumulator_output := 0 },
                       { nullifier := 1, utxo_accumulator_output := 0 }]
      receiver_posts := []
      sinks := []
      proof := 0 }
  sink_accounts := []

/-- A concrete `TransferPost` with a sender post but no authorization
signature. -/
def missingSigPost : TransferPost Nat Nat Nat Nat Nat Nat Nat Nat Nat where
  authorization_signature := none
  body :=
    { asset_id := some 0
      sources := [5]
      sender_posts := [{ nullifier := 1, utxo_accumulator_output := 0 }]
      receiver_posts := []
      sinks := []
      proof := 0 }
  sink_accounts := []

/-- A concrete `MutationLedger` over `Nat` data whose mutations all succeed. -/
def okMutationLedger : MutationLedger Nat Nat Nat Nat Nat Nat Unit where
  spend := fun _ _ => .ok ()
  register := fun _ _ => .ok ()
  update_public_balances := fun _ _ _ _ => .ok ()

/-- A concrete validated `TransferPostingKey` with a public asset id. -/
def samplePostingKey : TransferPostingKey Nat Nat Nat Nat Nat Nat Nat where
  asset_id := some 3
  source_posting_keys := [10]
  sender_posting_keys := [1, 2]
  receiver_posting_keys := [4]
  sink_posting_keys := [20]
  proof := 9
  event := 42

/-- A concrete sink-less `Transfer` with one sender (so it requires an
authorization) and one receiver. -/
def sampleSinklessTransfer : Transfer Nat Nat Nat Nat Nat where
  authorization := some 0
  asset_id := some 7
  sources := [2]
  senders := [1]
  receivers := [3]
  sinks := []

/-! ## Helper lemmas -/

/-- Left-folding `+` over a list starting from `x` computes `x` plus the list
sum. -/
theorem foldl_add_eq_add_sum {V : Type} [AddMonoid V] (xs : List V) (x : V) :
    xs.foldl (· + ·) x = x + xs.sum := by
  induction xs generalizing x with
  | nil => simp
  | cons y ys ih => simp [List.foldl_cons, ih, List.sum_cons, add_assoc]

/-- `value_sum` succeeds on a non-empty list and computes its sum. -/
theorem value_sum_eq_sum {V : Type} [AddMonoid V] (l : List V) (h : l ≠ []) :
    TransferVar.value_sum l = some l.sum := by
  cases l with
  | nil => exact absurd rfl h
  | cons x xs => simp [TransferVar.value_sum, foldl_add_eq_add_sum, List.sum_cons]

/-- `all_unequal` decides pairwise unrelatedness. -/
theorem all_unequal_eq_true_iff {T : Type} (l : List T) (eq : T → T → Bool) :
    all_unequal l eq = true ↔ l.Pairwise (fun a b => eq a b = false) := by
  induction l with
  | nil => simp [all_unequal]
  | cons x xs ih =>
      simp only [all_unequal, Bool.and_eq_true, List.all_eq_true, List.pairwise_cons, ih,
        Bool.not_eq_true']

/-- `all_unequal` fails exactly when two distinct positions are related. -/
theorem all_unequal_eq_false_iff {T : Type} (l : List T) (eq : T → T → Bool) :
    all_unequal l eq = false
      ↔ ∃ i j : Fin l.length, i < j ∧ eq (l.get i) (l.get j) = true := by
  rw [← Bool.not_eq_true, all_unequal_eq_true_iff, List.pairwise_iff_get]
  constructor
  · intro h
    by_contra hc
    push_neg at hc
    exact h fun i j hij => by
      have := hc i j hij
      simpa [Bool.not_eq_true] using this
  · rintro ⟨i, j, hij, hrel⟩ h
    have := h i j hij
    rw [this] at hrel
    exact Bool.false_ne_true hrel

/-- `post_all` on keys that all post successfully succeeds and logs one call
per key, in order. -/
theorem post_all_ok {κ ε μ : Type} (f : κ → Except ε Unit) (call : κ → μ)
    (l : List κ) (h : ∀ k ∈ l, f k = .ok ()) :
    post_all f call l = (.ok (), l.map call) := by
  induction l with
  | nil => simp [post_all]
  | cons k ks ih =>
      have hk : f k = .ok () := h k (List.mem_cons_self k ks)
      have hks := ih fun x hx => h x (List.mem_cons_of_mem k hx)
      simp [post_all, hk, hks]

/-- Every call logged by `post_all` is of the form `call k`. -/
theorem post_all_log_shape {κ ε μ : Type} (f : κ → Except ε Unit) (call : κ → μ)
    (l : List κ) : ∀ c ∈ (post_all f call l).2, ∃ k, c = call k := by
  induction l with
  | nil => simp [post_all]
  | cons k ks ih =>
      intro c hc
      rw [post_all] at hc
      cases hfk : f k with
      | error e => rw [hfk] at hc; simp at hc; exact ⟨k, hc⟩
      | ok _ =>
          rw [hfk] at hc
          simp only at hc
          rcases hpa : post_all f call ks with ⟨r, log⟩
          rw [hpa] at hc
          simp only [List.mem_cons] at hc
          cases hc with
          | inl h => exact ⟨k, h⟩
          | inr h => exact ih c (by rw [hpa]; exact h)

/-- `check_shape` fails exactly on the four bad-shape conditions. -/
theorem check_shape_eq_false_iff (sources senders receivers sinks : Nat)
    (has_authorization has_visible_asset_id : Bool) :
    Transfer.check_shape sources senders receivers sinks
        has_authorization has_visible_asset_id = false
      ↔ (sources + senders = 0 ∨ receivers + sinks = 0
          ∨ has_authorization ≠ decide (senders > 0)
          ∨ has_visible_asset_id ≠ decide (sources + sinks > 0)) := by
  simp only [Transfer.check_shape, Transfer.has_nonempty_input_shape,
    Transfer.has_nonempty_output_shape, Transfer.has_authorization_when_required,
    Transfer.has_visible_asset_id_when_required, requires_authorization,
    has_public_participants, Bool.and_eq_false_iff]
  cases has_authorization <;> cases has_visible_asset_id <;>
    by_cases h1 : senders > 0 <;> by_cases h2 : sources + sinks > 0 <;>
      simp [h1, h2]

/-- C8: `Transfer::new` panics exactly when `SOURCES + SENDERS = 0`, or
`RECEIVERS + SINKS = 0`, or authorization presence differs from `SENDERS > 0`,
or public-asset-id presence differs from `SOURCES + SINKS > 0`; otherwise it
returns a `Transfer` whose six fields are exactly the supplied arguments. -/
theorem C8_transfer_new_shape {A Id V S R : Type}
    (authorization : Option A) (asset_id : Option Id)
    (sources : List V) (senders : List S) (receivers : List R) (sinks : List V) :
    (Transfer.new authorization asset_id sources senders receivers sinks = none
      ↔ (sources.length + senders.length = 0
          ∨ receivers.length + sinks.length = 0
          ∨ authorization.isSome ≠ decide (senders.length > 0)
          ∨ asset_id.isSome ≠ decide (sources.length + sinks.length > 0)))
    ∧ (∀ t, Transfer.new authorization asset_id sources senders receivers sinks = some t →
        t.authorization = authorization ∧ t.asset_id = asset_id ∧ t.sources = sources
          ∧ t.senders = senders ∧ t.receivers = receivers ∧ t.sinks = sinks) := by
  constructor
  · rw [← check_shape_eq_false_iff sources.length senders.length receivers.length sinks.length
      authorization.isSome asset_id.isSome]
    unfold Transfer.new
    split
    case isTrue h => simp [h]
    case isFalse h => simpa using Bool.eq_false_iff.mpr h
  · intro t ht
    unfold Transfer.new at ht
    split at ht
    case isTrue h =>
        cases ht
        exact ⟨rfl, rfl, rfl, rfl, rfl, rfl⟩
    case isFalse h => cases ht

/-- C8 witness: a concrete in-shape construction succeeds and stores the
fields unchanged. -/
theorem C8_transfer_new_shape_witness :
    (Transfer.new_unchecked (some ()) (some (1 : Nat)) [(5 : Nat)] [()] [()]
        ([] : List Nat)).sources = [5]
      ∧ (Transfer.new_unchecked (some ()) (some (1 : Nat)) [(5 : Nat)] [()] [()]
          ([] : List Nat)).authorization = some () := by
  have h := (C8_transfer_new_shape (some ()) (some (1 : Nat)) [(5 : Nat)] [()] [()]
    ([] : List Nat)).2
    (Transfer.new_unchecked (some ()) (some (1 : Nat)) [(5 : Nat)] [()] [()] ([] : List Nat))
    rfl
  exact ⟨h.2.2.1, h.1⟩

/-- C7: the prover-side (`Transfer`), verifier-side (`TransferPost`) and
ledger-side (`TransferPostingKeyRef`) public-input foldings all produce their
items in the identical canonical order: authorization key (if present), asset
id (if present), sources, senders, receivers, sinks. -/
theorem C7_proof_input_folding_order
    {A Id V S R AK Acct N Output U Pf SigV VSrc SK RK VSink : Type}
    (field_get : A → AK) (t : Transfer A Id V S R)
    (post : TransferPost Acct Id V N Output U Pf AK SigV)
    (source_as_ref : VSrc → V) (sink_as_ref : VSink → V)
    (ref : TransferPostingKeyRef AK Id VSrc SK RK VSink Pf) :
    Transfer.extendInput field_get t
        = canonical_input (t.authorization.map field_get) t.asset_id
            t.sources t.senders t.receivers t.sinks
      ∧ TransferPost.extendInput post
          = canonical_input
              (post.authorization_signature.map AuthorizationSignature.authorization_key)
              post.body.asset_id post.body.sources post.body.sender_posts
              post.body.receiver_posts post.body.sinks
      ∧ TransferPostingKeyRef.extendInput source_as_ref sink_as_ref ref
          = canonical_input ref.authorization_key ref.asset_id
              (ref.sources.map source_as_ref) ref.senders ref.receivers
              (ref.sinks.map sink_as_ref) := by
  refine ⟨?_, ?_, ?_⟩
  · obtain ⟨auth, aid, srcs, snds, rcvs, snks⟩ := t
    cases auth <;> cases aid <;> simp [Transfer.extendInput, canonical_input]
  · obtain ⟨sig, ⟨aid, srcs, sps, rps, snks, pf⟩, accts⟩ := post
    cases sig <;> cases aid <;>
      simp [TransferPost.extendInput, TransferPostBody.extendInput, canonical_input]
  · obtain ⟨ak, aid, srcs, snds, rcvs, snks, pf⟩ := ref
    cases ak <;> cases aid <;>
      simp [TransferPostingKeyRef.extendInput, canonical_input, Function.comp_def]

/-- Counting with a predicate that rejects the replicated element yields zero. -/
theorem countP_replicate_false {T : Type} (p : T → Bool) (a : T) (n : Nat)
    (h : p a = false) : (List.replicate n a).countP p = 0 := by
  induction n with
  | zero => simp
  | succ m ih => simp [List.replicate_succ, List.countP_cons, h, ih]

/-- C1: under the shape invariants (`SOURCES + SENDERS > 0`,
`RECEIVERS + SINKS > 0`, authorization present when there are senders), the
constraint builder does not panic (`reduce().unwrap()` succeeds on non-empty
term lists), asserts exactly one value equality — between the sum of secret
sender values plus public source amounts and the sum of secret receiver values
plus public sink amounts — and asserts exactly one asset-id constraint: all
collected secret asset ids equal to the public asset id when one exists,
otherwise pairwise equal. -/
theorem C1_build_validity_constraints_balance {A Id V : Type} [AddMonoid V]
    (authorization : Option A) (asset_id : Option Id)
    (sources : List V) (senders : List (SenderVar Id V))
    (receivers : List (ReceiverVar Id V)) (sinks : List V)
    (hin : 0 < sources.length + senders.length)
    (hout : 0 < receivers.length + sinks.length)
    (hauth : 0 < senders.length → authorization.isSome = true) :
    ∃ cs, TransferVar.build_validity_constraints authorization asset_id
        sources senders receivers sinks = some cs
      ∧ cs.countP (fun c => match c with
          | Constraint.valEq _ _ => true | _ => false) = 1
      ∧ Constraint.valEq ((senders.map SenderVar.asset_value).sum + sources.sum)
          ((receivers.map ReceiverVar.asset_value).sum + sinks.sum) ∈ cs
      ∧ cs.countP (fun c => match c with
          | Constraint.allEqToBase _ _ => true
          | Constraint.allEq _ => true
          | _ => false) = 1
      ∧ (match asset_id with
         | some base => Constraint.allEqToBase base
             (senders.map SenderVar.asset_id ++ receivers.map ReceiverVar.asset_id) ∈ cs
         | none => Constraint.allEq
             (senders.map SenderVar.asset_id ++ receivers.map ReceiverVar.asset_id) ∈ cs) := by
  have hOutNe : (receivers.map ReceiverVar.asset_value) ++ sinks ≠ [] := by
    intro h
    have hlen := congrArg List.length h
    simp only [List.length_append, List.length_map, List.length_nil] at hlen
    omega
  have hOut : TransferVar.output_sum receivers sinks
      = (some ((receivers.map ReceiverVar.asset_value).sum + sinks.sum),
          receivers.map (fun _ => Constraint.receiverWellFormed),
          receivers.map ReceiverVar.asset_id) := by
    simp [TransferVar.output_sum, value_sum_eq_sum _ hOutNe, List.sum_append]
  cases hA : authorization with
  | some a =>
      have hInNe : (senders.map SenderVar.asset_value) ++ sources ≠ [] := by
        intro h
        have hlen := congrArg List.length h
        simp only [List.length_append, List.length_map, List.length_nil] at hlen
        omega
      have hIn : TransferVar.input_sum (some a) senders sources
          = (some ((senders.map SenderVar.asset_value).sum + sources.sum),
              Constraint.authorized :: senders.map (fun _ => Constraint.senderWellFormed),
              senders.map SenderVar.asset_id) := by
        simp [TransferVar.input_sum, value_sum_eq_sum _ hInNe, List.sum_append]
      refine ⟨_, by rw [TransferVar.build_validity_constraints, hIn, hOut], ?_, ?_, ?_, ?_⟩
      · cases asset_id <;>
          simp [List.countP_append, List.countP_cons, countP_replicate_false]
      · cases asset_id <;> simp
      · cases asset_id <;>
          simp [List.countP_append, List.countP_cons, countP_replicate_false]
      · cases asset_id <;> simp
  | none =>
      have hs0 : senders = [] := by
        cases hs : senders with
        | nil => rfl
        | cons x xs =>
            have := hauth (by simp [hs])
            rw [hA] at this
            simp at this
      subst hs0
      have hSrcNe : sources ≠ [] := by
        intro h
        subst h
        simp at hin
      have hIn : @TransferVar.input_sum A Id V _ none [] sources
          = (some sources.sum, [], []) := by
        simp [TransferVar.input_sum, value_sum_eq_sum _ hSrcNe]
      refine ⟨_, by rw [TransferVar.build_validity_constraints, hIn, hOut], ?_, ?_, ?_, ?_⟩
      · cases asset_id <;>
          simp [List.countP_append, List.countP_cons, countP_replicate_false]
      · cases asset_id <;> simp
      · cases asset_id <;>
          simp [List.countP_append, List.countP_cons, countP_replicate_false]
      · cases asset_id <;> simp

/-- C1 witness: a concrete one-source, one-sender, one-receiver, one-sink
transfer variable builds its constraints without panicking and contains the
balance equality. -/
theorem C1_build_validity_constraints_balance_witness :
    ∃ cs, TransferVar.build_validity_constraints (some ()) (some (7 : Nat))
        [(2 : Nat)] [(⟨7, 3⟩ : SenderVar Nat Nat)] [(⟨7, 5⟩ : ReceiverVar Nat Nat)] [0]
        = some cs
      ∧ Constraint.valEq
          (([(⟨7, 3⟩ : SenderVar Nat Nat)].map SenderVar.asset_value).sum + [(2 : Nat)].sum)
          (([(⟨7, 5⟩ : ReceiverVar Nat Nat)].map ReceiverVar.asset_value).sum + [(0 : Nat)].sum)
          ∈ cs := by
  obtain ⟨cs, h1, _, h3, _, _⟩ :=
    C1_build_validity_constraints_balance (some ()) (some (7 : Nat))
      [(2 : Nat)] [(⟨7, 3⟩ : SenderVar Nat Nat)] [(⟨7, 5⟩ : ReceiverVar Nat Nat)] [0]
      (by decide) (by decide) (fun _ => rfl)
  exact ⟨cs, h1, h3⟩

/-- C3: `has_valid_authorization_signature` succeeds exactly when either a
signature is present, at least one sender post exists and the signature
verifies over the payload `(body, sink_accounts)`, or no signature is present
and there are no sender posts; the three failure cases return `InvalidShape`
(signature with zero senders), `MissingSignature` (no signature with senders)
and `BadSignature` (failing verification); and in `validate` this check runs
before any other check: a failure is returned directly with no ledger call
performed. -/
theorem C3_authorization_signature_validation
    {Acct Id V N Output U Pf AK SigV SE RE LE VSrc VSink SK RK PK Ev : Type}
    (verify : AuthorizationSignature AK SigV → TransferPostBody Id V N Output U Pf →
      List Acct → Bool)
    (post : TransferPost Acct Id V N Output U Pf AK SigV) :
    (TransferPost.has_valid_authorization_signature verify post = .ok ()
      ↔ ((∃ s, post.authorization_signature = some s
            ∧ 0 < post.body.sender_posts.length
            ∧ verify s post.body post.sink_accounts = true)
          ∨ (post.authorization_signature = none ∧ post.body.sender_posts.length = 0)))
    ∧ (TransferPost.has_valid_authorization_signature verify post
          = .error InvalidAuthorizationSignature.invalidShape
        ↔ (∃ s, post.authorization_signature = some s)
            ∧ post.body.sender_posts.length = 0)
    ∧ (TransferPost.has_valid_authorization_signature verify post
          = .error InvalidAuthorizationSignature.missingSignature
        ↔ post.authorization_signature = none ∧ 0 < post.body.sender_posts.length)
    ∧ (TransferPost.has_valid_authorization_signature verify post
          = .error InvalidAuthorizationSignature.badSignature
        ↔ ∃ s, post.authorization_signature = some s
            ∧ 0 < post.body.sender_posts.length
            ∧ verify s post.body post.sink_accounts = false)
    ∧ (∀ (nullifier_related : N → N → Bool) (utxo_related : U → U → Bool)
        (L : TransferLedger Acct Id V N Output U Pf AK SE RE LE VSrc VSink SK RK PK Ev)
        (source_accounts sink_accounts : List Acct) (e : InvalidAuthorizationSignature),
        TransferPost.has_valid_authorization_signature verify post = .error e →
          TransferPost.validate verify nullifier_related utxo_related L post
              source_accounts sink_accounts
            = (.error (TransferPostError.invalidAuthorizationSignature e), [])) := by
  have hval : ∀ (nullifier_related : N → N → Bool) (utxo_related : U → U → Bool)
      (L : TransferLedger Acct Id V N Output U Pf AK SE RE LE VSrc VSink SK RK PK Ev)
      (source_accounts sink_accounts : List Acct) (e : InvalidAuthorizationSignature),
      TransferPost.has_valid_authorization_signature verify post = .error e →
        TransferPost.validate verify nullifier_related utxo_related L post
            source_accounts sink_accounts
          = (.error (TransferPostError.invalidAuthorizationSignature e), []) := by
    intro nullifier_related utxo_related L source_accounts sink_accounts e he
    unfold TransferPost.validate
    rw [he]
  rcases hs : post.authorization_signature with _ | s
  · rcases Nat.eq_zero_or_pos post.body.sender_posts.length with hn | hn
    · have hr : requires_authorization post.body.sender_posts.length = false := by
        simp [requires_authorization, hn]
      have key : TransferPost.has_valid_authorization_signature verify post = .ok () := by
        unfold TransferPost.has_valid_authorization_signature
        rw [hs, hr]
      refine ⟨?_, ?_, ?_, ?_, hval⟩
      · rw [key]
        exact iff_of_true rfl (Or.inr ⟨rfl, hn⟩)
      · rw [key]
        refine iff_of_false (by simp) ?_
        rintro ⟨⟨s, hcontr⟩, -⟩
        exact Option.noConfusion hcontr
      · rw [key]
        refine iff_of_false (by simp) ?_
        rintro ⟨-, hp⟩
        omega
      · rw [key]
        refine iff_of_false (by simp) ?_
        rintro ⟨s, hcontr, -, -⟩
        exact Option.noConfusion hcontr
    · have hr : requires_authorization post.body.sender_posts.length = true := by
        simp [requires_authorization]
        omega
      have key : TransferPost.has_valid_authorization_signature verify post
          = .error InvalidAuthorizationSignature.missingSignature := by
        unfold TransferPost.has_valid_authorization_signature
        rw [hs, hr]
      refine ⟨?_, ?_, ?_, ?_, hval⟩
      · rw [key]
        refine iff_of_false (by simp) ?_
        rintro (⟨s, hcontr, -, -⟩ | ⟨-, h0⟩)
        · exact Option.noConfusion hcontr
        · omega
      · rw [key]
        refine iff_of_false (by simp) ?_
        rintro ⟨⟨s, hcontr⟩, -⟩
        exact Option.noConfusion hcontr
      · rw [key]
        exact iff_of_true rfl ⟨rfl, hn⟩
      · rw [key]
        refine iff_of_false (by simp) ?_
        rintro ⟨s, hcontr, -, -⟩
        exact Option.noConfusion hcontr
  · rcases Nat.eq_zero_or_pos post.body.sender_posts.length with hn | hn
    · have hr : requires_authorization post.body.sender_posts.length = false := by
        simp [requires_authorization, hn]
      have key : TransferPost.has_valid_authorization_signature verify post
          = .error InvalidAuthorizationSignature.invalidShape := by
        unfold TransferPost.has_valid_authorization_signature
        rw [hs, hr]
      refine ⟨?_, ?_, ?_, ?_, hval⟩
      · rw [key]
        refine iff_of_false (by simp) ?_
        rintro (⟨s', -, hp, -⟩ | ⟨hcontr, -⟩)
        · omega
        · exact Option.noConfusion hcontr
      · rw [key]
        exact iff_of_true rfl ⟨⟨s, rfl⟩, hn⟩
      · rw [key]
        refine iff_of_false (by simp) ?_
        rintro ⟨hcontr, -⟩
        exact Option.noConfusion hcontr
      · rw [key]
        refine iff_of_false (by simp) ?_
        rintro ⟨s', -, hp, -⟩
        omega
    · have hr : requires_authorization post.body.sender_posts.length = true := by
        simp [requires_authorization]
        omega
      cases hv : verify s post.body post.sink_accounts with
      | true =>
          have key : TransferPost.has_valid_authorization_signature verify post = .ok () := by
            simp [TransferPost.has_valid_authorization_signature, hs, hr, hv]
          refine ⟨?_, ?_, ?_, ?_, hval⟩
          · rw [key]
            exact iff_of_true rfl (Or.inl ⟨s, rfl, hn, hv⟩)
          · rw [key]
            refine iff_of_false (by simp) ?_
            rintro ⟨-, h0⟩
            omega
          · rw [key]
            refine iff_of_false (by simp) ?_
            rintro ⟨hcontr, -⟩
            exact Option.noConfusion hcontr
          · rw [key]
            refine iff_of_false (by simp) ?_
            rintro ⟨s', heq, -, hv'⟩
            cases heq
            rw [hv] at hv'
            exact Bool.noConfusion hv'
      | false =>
          have key : TransferPost.has_valid_authorization_signature verify post
              = .error InvalidAuthorizationSignature.badSignature := by
            simp [TransferPost.has_valid_authorization_signature, hs, hr, hv]
          refine ⟨?_, ?_, ?_, ?_, hval⟩
          · rw [key]
            refine iff_of_false (by simp) ?_
            rintro (⟨s', heq, -, hv'⟩ | ⟨hcontr, -⟩)
            · cases heq
              rw [hv] at hv'
              exact Bool.noConfusion hv'
            · exact Option.noConfusion hcontr
          · rw [key]
            refine iff_of_false (by simp) ?_
            rintro ⟨-, h0⟩
            omega
          · rw [key]
            refine iff_of_false (by simp) ?_
            rintro ⟨hcontr, -⟩
            exact Option.noConfusion hcontr
          · rw [key]
            exact iff_of_true rfl ⟨s, rfl, hn, hv⟩

/-- C3 witness: a concrete post with one sender post and no signature fails
with `MissingSignature`, and `validate` returns that error with no ledger
call. -/
theorem C3_authorization_signature_validation_witness :
    TransferPost.has_valid_authorization_signature (fun _ _ _ => true) missingSigPost
        = .error InvalidAuthorizationSignature.missingSignature
      ∧ TransferPost.validate (fun _ _ _ => true) (fun a b => a == b) (fun a b => a == b)
          okLedger missingSigPost [0] []
        = (.error (TransferPostError.invalidAuthorizationSignature
            InvalidAuthorizationSignature.missingSignature), []) := by
  have h := @C3_authorization_signature_validation Nat Nat Nat Nat Nat Nat Nat Nat Nat
    Unit Unit Unit Nat Nat Nat Nat Nat Nat
    (fun _ _ _ => true) missingSigPost
  have he : TransferPost.has_valid_authorization_signature (fun _ _ _ => true) missingSigPost
      = .error InvalidAuthorizationSignature.missingSignature :=
    (h.2.2.1).mpr ⟨rfl, by decide⟩
  exact ⟨he, h.2.2.2.2 (fun a b => a == b) (fun a b => a == b) okLedger [0] [] _ he⟩

/-- C2: `into_post` may return `Ok(Some(post))` only in the dispatch
combinations `(requires-authorization, has-authorization, has-spending-key) =
(true, true, Some)` and `(false, false, None)`; every other combination
returns `Ok(None)`.  In the `(true, true, Some)` combination the result is
`Ok(None)` exactly when proving succeeded but signing failed (invalid
authorization), and proof-system failures propagate as `Err`; in the
`(false, false, None)` combination the result is `Ok(Some _)` exactly when
proving succeeded, and proof-system failures propagate as `Err`. -/
theorem C2_into_post_dispatch
    {A Id V S R K E N Output U Pf AK SigV Acct : Type}
    (sender_into_post : S → SenderPost N Output)
    (receiver_into_post : R → ReceiverPost U)
    (prove : Except E Pf)
    (sign : K → A → TransferPostBody Id V N Output U Pf → List Acct →
      Option (AuthorizationSignature AK SigV))
    (t : Transfer A Id V S R)
    (spending_key : Option K)
    (sink_accounts : List Acct) :
    ((∃ p, Transfer.into_post sender_into_post receiver_into_post prove sign t
          spending_key sink_accounts = .ok (some p)) →
        ((requires_authorization t.senders.length = true ∧ t.authorization.isSome = true
            ∧ spending_key.isSome = true)
          ∨ (requires_authorization t.senders.length = false ∧ t.authorization = none
              ∧ spending_key = none)))
    ∧ (¬((requires_authorization t.senders.length = true ∧ t.authorization.isSome = true
            ∧ spending_key.isSome = true)
          ∨ (requires_authorization t.senders.length = false ∧ t.authorization = none
              ∧ spending_key = none)) →
        Transfer.into_post sender_into_post receiver_into_post prove sign t
          spending_key sink_accounts = .ok none)
    ∧ (∀ auth k, requires_authorization t.senders.length = true →
        t.authorization = some auth → spending_key = some k →
          (Transfer.into_post sender_into_post receiver_into_post prove sign t
              spending_key sink_accounts = .ok none
            ↔ ∃ proof, prove = .ok proof
                ∧ sign k auth
                    (TransferPostBody.build sender_into_post receiver_into_post proof
                      t.asset_id t.sources t.senders t.receivers t.sinks) sink_accounts
                  = none)
          ∧ (∀ e, Transfer.into_post sender_into_post receiver_into_post prove sign t
                spending_key sink_accounts = .error e
              ↔ prove = .error e))
    ∧ (requires_authorization t.senders.length = false → t.authorization = none →
        spending_key = none →
          ((∃ p, Transfer.into_post sender_into_post receiver_into_post prove sign t
                spending_key sink_accounts = .ok (some p))
            ↔ ∃ proof, prove = .ok proof)
          ∧ (∀ e, Transfer.into_post sender_into_post receiver_into_post prove sign t
                spending_key sink_accounts = .error e
              ↔ prove = .error e)) := by
  cases hR : requires_authorization t.senders.length with
  | true =>
      rcases hA : t.authorization with _ | auth
      · rcases hK : spending_key with _ | k
        · have key : Transfer.into_post sender_into_post receiver_into_post prove sign t
              none sink_accounts
              = (.ok none : Except E (Option (TransferPost Acct Id V N Output U Pf AK SigV))) := by
            unfold Transfer.into_post
            rw [hR, hA]
          refine ⟨?_, fun _ => key, ?_, ?_⟩
          · rintro ⟨p, hp⟩
            rw [key] at hp
            simp at hp
          · intro auth' k' _ hA' _
            exact Option.noConfusion hA'
          · intro hR' _ _
            exact Bool.noConfusion hR'
        · have key : Transfer.into_post sender_into_post receiver_into_post prove sign t
              (some k) sink_accounts
              = (.ok none : Except E (Option (TransferPost Acct Id V N Output U Pf AK SigV))) := by
            unfold Transfer.into_post
            rw [hR, hA]
          refine ⟨?_, fun _ => key, ?_, ?_⟩
          · rintro ⟨p, hp⟩
            rw [key] at hp
            simp at hp
          · intro auth' k' _ hA' _
            exact Option.noConfusion hA'
          · intro hR' _ _
            exact Bool.noConfusion hR'
      · rcases hK : spending_key with _ | k
        · have key : Transfer.into_post sender_into_post receiver_into_post prove sign t
              none sink_accounts
              = (.ok none : Except E (Option (TransferPost Acct Id V N Output U Pf AK SigV))) := by
            unfold Transfer.into_post
            rw [hR, hA]
          refine ⟨?_, fun _ => key, ?_, ?_⟩
          · rintro ⟨p, hp⟩
            rw [key] at hp
            simp at hp
          · intro auth' k' _ _ hK'
            exact Option.noConfusion hK'
          · intro hR' _ _
            exact Bool.noConfusion hR'
        · -- the (true, true, Some) combination
          refine ⟨?_, ?_, ?_, ?_⟩
          · intro _
            exact Or.inl ⟨rfl, rfl, rfl⟩
          · intro hc
            exact absurd (Or.inl ⟨rfl, rfl, rfl⟩) hc
          · intro auth' k' _ hA' hK'
            cases hA'
            cases hK'
            cases hp : prove with
            | error e0 =>
                have key : Transfer.into_post sender_into_post receiver_into_post
                    (Except.error e0 : Except E Pf) sign t (some k) sink_accounts
                    = .error e0 := by
                  unfold Transfer.into_post
                  rw [hR, hA]
                constructor
                · rw [key]
                  refine iff_of_false (by simp) ?_
                  rintro ⟨pf, hpf, -⟩
                  exact Except.noConfusion hpf
                · intro e
                  rw [key]
                  simp
            | ok pf =>
                cases hsig : sign k auth
                    (TransferPostBody.build sender_into_post receiver_into_post pf
                      t.asset_id t.sources t.senders t.receivers t.sinks) sink_accounts with
                | none =>
                    have key : Transfer.into_post sender_into_post receiver_into_post
                        (Except.ok pf : Except E Pf) sign t (some k) sink_accounts
                        = .ok none := by
                      unfold Transfer.into_post
                      rw [hR, hA]
                      simp only [hsig]
                    constructor
                    · rw [key]
                      exact iff_of_true rfl ⟨pf, rfl, hsig⟩
                    · intro e
                      rw [key]
                      exact iff_of_false (by simp) (fun hc => Except.noConfusion hc)
                | some s =>
                    have key : ∃ p, Transfer.into_post sender_into_post receiver_into_post
                        (Except.ok pf : Except E Pf) sign t (some k) sink_accounts
                        = .ok (some p) := by
                      unfold Transfer.into_post
                      rw [hR, hA]
                      simp only [hsig]
                      cases hsk : has_sinks t.sinks.length <;> simp [hsk]
                    obtain ⟨p, key⟩ := key
                    constructor
                    · rw [key]
                      refine iff_of_false (by simp) ?_
                      rintro ⟨pf', hpf', hsig'⟩
                      cases hpf'
                      rw [hsig] at hsig'
                      exact Option.noConfusion hsig'
                    · intro e
                      rw [key]
                      exact iff_of_false (by simp) (fun hc => Except.noConfusion hc)
          · intro hR' _ _
            exact Bool.noConfusion hR'
  | false =>
      rcases hA : t.authorization with _ | auth
      · rcases hK : spending_key with _ | k
        · -- the (false, false, None) combination
          refine ⟨?_, ?_, ?_, ?_⟩
          · intro _
            exact Or.inr ⟨rfl, rfl, rfl⟩
          · intro hc
            exact absurd (Or.inr ⟨rfl, rfl, rfl⟩) hc
          · intro auth' k' hR' _ _
            exact Bool.noConfusion hR'
          · intro _ _ _
            cases hp : prove with
            | error e0 =>
                have key : Transfer.into_post sender_into_post receiver_into_post
                    (Except.error e0 : Except E Pf) sign t none sink_accounts
                    = (.error e0 :
                        Except E (Option (TransferPost Acct Id V N Output U Pf AK SigV))) := by
                  unfold Transfer.into_post
                  rw [hR, hA]
                constructor
                · rw [key]
                  constructor
                  · rintro ⟨p, hp2⟩
                    exact absurd hp2 (by simp)
                  · rintro ⟨pf, hpf⟩
                    exact Except.noConfusion hpf
                · intro e
                  rw [key]
                  simp
            | ok pf =>
                have key : Transfer.into_post sender_into_post receiver_into_post
                    (Except.ok pf : Except E Pf) sign t none sink_accounts
                    = .ok (some (TransferPost.new_unchecked none
                        (TransferPostBody.build sender_into_post receiver_into_post pf
                          t.asset_id t.sources t.senders t.receivers t.sinks))) := by
                  unfold Transfer.into_post
                  rw [hR, hA]
                constructor
                · rw [key]
                  exact iff_of_true ⟨_, rfl⟩ ⟨pf, rfl⟩
                · intro e
                  rw [key]
                  exact iff_of_false (by simp) (fun hc => Except.noConfusion hc)
        · have key : Transfer.into_post sender_into_post receiver_into_post prove sign t
              (some k) sink_accounts
              = (.ok none : Except E (Option (TransferPost Acct Id V N Output U Pf AK SigV))) := by
            unfold Transfer.into_post
            rw [hR, hA]
          refine ⟨?_, fun _ => key, ?_, ?_⟩
          · rintro ⟨p, hp⟩
            rw [key] at hp
            simp at hp
          · intro auth' k' hR' _ _
            exact Bool.noConfusion hR'
          · intro _ _ hK'
            exact Option.noConfusion hK'
      · rcases hK : spending_key with _ | k
        · have key : Transfer.into_post sender_into_post receiver_into_post prove sign t
              none sink_accounts
              = (.ok none : Except E (Option (TransferPost Acct Id V N Output U Pf AK SigV))) := by
            unfold Transfer.into_post
            rw [hR, hA]
          refine ⟨?_, fun _ => key, ?_, ?_⟩
          · rintro ⟨p, hp⟩
            rw [key] at hp
            simp at hp
          · intro auth' k' hR' _ _
            exact Bool.noConfusion hR'
          · intro _ hA' _
            exact Option.noConfusion hA'
        · have key : Transfer.into_post sender_into_post receiver_into_post prove sign t
              (some k) sink_accounts
              = (.ok none : Except E (Option (TransferPost Acct Id V N Output U Pf AK SigV))) := by
            unfold Transfer.into_post
            rw [hR, hA]
          refine ⟨?_, fun _ => key, ?_, ?_⟩
          · rintro ⟨p, hp⟩
            rw [key] at hp
            simp at hp
          · intro auth' k' hR' _ _
            exact Bool.noConfusion hR'
          · intro _ hA' _
            exact Option.noConfusion hA'

/-- C2 witness: a concrete sink-less transfer requiring authorization, with a
spending key, a successful prover and a succeeding signer, does not return
`Ok(None)`; the same transfer without a spending key returns `Ok(None)`. -/
theorem C2_into_post_dispatch_witness :
    Transfer.into_post (K := Nat) (fun v => (⟨v, 0⟩ : SenderPost Nat Nat))
        (fun v => (⟨v⟩ : ReceiverPost Nat))
        (Except.ok 11 : Except Unit Nat)
        (fun _ _ _ _ => some (⟨8, 8⟩ : AuthorizationSignature Nat Nat))
        sampleSinklessTransfer (some (5 : Nat)) [(4 : Nat)]
      ≠ .ok none
    ∧ Transfer.into_post (K := Nat) (fun v => (⟨v, 0⟩ : SenderPost Nat Nat))
        (fun v => (⟨v⟩ : ReceiverPost Nat))
        (Except.ok 11 : Except Unit Nat)
        (fun _ _ _ _ => some (⟨8, 8⟩ : AuthorizationSignature Nat Nat))
        sampleSinklessTransfer none [(4 : Nat)]
      = .ok none := by
  constructor
  · intro hc
    have h := (C2_into_post_dispatch (K := Nat) (fun v => (⟨v, 0⟩ : SenderPost Nat Nat))
        (fun v => (⟨v⟩ : ReceiverPost Nat)) (Except.ok 11 : Except Unit Nat)
        (fun _ _ _ _ => some (⟨8, 8⟩ : AuthorizationSignature Nat Nat))
        sampleSinklessTransfer (some (5 : Nat)) [(4 : Nat)]).2.2.1
      0 5 (by decide) rfl rfl
    obtain ⟨pf, -, hs⟩ := h.1.mp hc
    exact Option.noConfusion hs
  · exact (C2_into_post_dispatch (K := Nat) (fun v => (⟨v, 0⟩ : SenderPost Nat Nat))
        (fun v => (⟨v⟩ : ReceiverPost Nat)) (Except.ok 11 : Except Unit Nat)
        (fun _ _ _ _ => some (⟨8, 8⟩ : AuthorizationSignature Nat Nat))
        sampleSinklessTransfer none [(4 : Nat)]).2.1 (by decide)

/-- Any post produced by `into_post` stores either the supplied sink accounts
(when the shape has sinks) or the empty list. -/
theorem into_post_result_sink_accounts
    {A Id V S R K E N Output U Pf AK SigV Acct : Type}
    (sender_into_post : S → SenderPost N Output)
    (receiver_into_post : R → ReceiverPost U)
    (prove : Except E Pf)
    (sign : K → A → TransferPostBody Id V N Output U Pf → List Acct →
      Option (AuthorizationSignature AK SigV))
    (t : Transfer A Id V S R)
    (spending_key : Option K)
    (sink_accounts : List Acct)
    (post : TransferPost Acct Id V N Output U Pf AK SigV) :
    Transfer.into_post sender_into_post receiver_into_post prove sign t spending_key
        sink_accounts = .ok (some post) →
      (has_sinks t.sinks.length = true ∧ post.sink_accounts = sink_accounts)
        ∨ post.sink_accounts = [] := by
  cases hR : requires_authorization t.senders.length <;>
    rcases hA : t.authorization with _ | auth <;>
    rcases hK : spending_key with _ | k <;>
    intro h <;>
    unfold Transfer.into_post at h <;>
    rw [hR, hA] at h
  case false.none.none =>
      cases hp : prove with
      | error e0 =>
          rw [hp] at h
          simp at h
      | ok pf =>
          rw [hp] at h
          simp only [Except.ok.injEq, Option.some.injEq] at h
          subst h
          exact Or.inr rfl
  case false.none.some => simp at h
  case false.some.none => simp at h
  case false.some.some => simp at h
  case true.none.none => simp at h
  case true.none.some => simp at h
  case true.some.none => simp at h
  case true.some.some =>
      cases hp : prove with
      | error e0 =>
          rw [hp] at h
          simp at h
      | ok pf =>
          rw [hp] at h
          simp only [] at h
          cases hsig : sign k auth
              (TransferPostBody.build sender_into_post receiver_into_post pf
                t.asset_id t.sources t.senders t.receivers t.sinks) sink_accounts with
          | none =>
              rw [hsig] at h
              simp at h
          | some s =>
              rw [hsig] at h
              cases hsk : has_sinks t.sinks.length with
              | true =>
                  rw [hsk] at h
                  simp only [if_true, Except.ok.injEq, Option.some.injEq] at h
                  subst h
                  exact Or.inl ⟨rfl, rfl⟩
              | false =>
                  rw [hsk] at h
                  simp only [Bool.false_eq_true, if_false, Except.ok.injEq,
                    Option.some.injEq] at h
                  subst h
                  exact Or.inr rfl

/-- C10: for a sink-less shape, every post produced by `into_post` stores an
empty sink-account list; yet in the authorized combination the signature is
computed by `sign` over the payload containing the *supplied* `sink_accounts`,
and the returned post nevertheless stores `[]`. -/
theorem C10_sinkless_post_empty_sink_accounts
    {A Id V S R K E N Output U Pf AK SigV Acct : Type}
    (sender_into_post : S → SenderPost N Output)
    (receiver_into_post : R → ReceiverPost U)
    (prove : Except E Pf)
    (sign : K → A → TransferPostBody Id V N Output U Pf → List Acct →
      Option (AuthorizationSignature AK SigV))
    (t : Transfer A Id V S R)
    (spending_key : Option K)
    (sink_accounts : List Acct)
    (hsinkless : t.sinks = []) :
    (∀ post, Transfer.into_post sender_into_post receiver_into_post prove sign t
        spending_key sink_accounts = .ok (some post) → post.sink_accounts = [])
    ∧ (∀ auth k proof s,
        requires_authorization t.senders.length = true →
        t.authorization = some auth →
        spending_key = some k →
        prove = .ok proof →
        sign k auth
            (TransferPostBody.build sender_into_post receiver_into_post proof
              t.asset_id t.sources t.senders t.receivers t.sinks) sink_accounts
          = some s →
        Transfer.into_post sender_into_post receiver_into_post prove sign t
            spending_key sink_accounts
          = .ok (some (TransferPost.new_unchecked_with_sinks (some s)
              (TransferPostBody.build sender_into_post receiver_into_post proof
                t.asset_id t.sources t.senders t.receivers t.sinks) []))) := by
  constructor
  · intro post hpost
    rcases into_post_result_sink_accounts sender_into_post receiver_into_post prove sign t
        spending_key sink_accounts post hpost with ⟨hsk, -⟩ | hempty
    · rw [hsinkless] at hsk
      simp [has_sinks] at hsk
    · exact hempty
  · intro auth k proof s hR hA hK hp hsig
    unfold Transfer.into_post
    rw [hR, hA, hK, hp]
    simp only [hsig]
    have hskf : has_sinks t.sinks.length = false := by
      rw [hsinkless]
      simp [has_sinks]
    rw [hskf]
    simp [TransferPost.new_unchecked]

/-- C10 witness: the concrete sink-less authorized transfer, signed against the
supplied sink account list `[4]`, yields a post storing an empty sink-account
list. -/
theorem C10_sinkless_post_empty_sink_accounts_witness :
    Transfer.into_post (K := Nat) (fun v => (⟨v, 0⟩ : SenderPost Nat Nat))
        (fun v => (⟨v⟩ : ReceiverPost Nat))
        (Except.ok 11 : Except Unit Nat)
        (fun _ _ _ _ => some (⟨8, 8⟩ : AuthorizationSignature Nat Nat))
        sampleSinklessTransfer (some 5) [(4 : Nat)]
      = .ok (some (TransferPost.new_unchecked_with_sinks
          (some (⟨8, 8⟩ : AuthorizationSignature Nat Nat))
          (TransferPostBody.build (fun v => (⟨v, 0⟩ : SenderPost Nat Nat))
            (fun v => (⟨v⟩ : ReceiverPost Nat)) 11
            sampleSinklessTransfer.asset_id sampleSinklessTransfer.sources
            sampleSinklessTransfer.senders sampleSinklessTransfer.receivers
            sampleSinklessTransfer.sinks) [])) :=
  (C10_sinkless_post_empty_sink_accounts (K := Nat)
      (fun v => (⟨v, 0⟩ : SenderPost Nat Nat)) (fun v => (⟨v⟩ : ReceiverPost Nat))
      (Except.ok 11 : Except Unit Nat)
      (fun _ _ _ _ => some (⟨8, 8⟩ : AuthorizationSignature Nat Nat))
      sampleSinklessTransfer (some 5) [(4 : Nat)] rfl).2
    0 5 11 ⟨8, 8⟩ (by decide) rfl rfl rfl rfl

/-- `check_public_participants`: every logged call is an account check, an
`InvalidShape` error is returned with an empty log (before any ledger call),
and its errors are only `InvalidShape`, `InvalidSourceAccount` or
`InvalidSinkAccount`. -/
theorem check_public_participants_facts
    {Acct Id V N Output U Pf AK SE RE LE VSrc VSink SK RK PK Ev : Type}
    (L : TransferLedger Acct Id V N Output U Pf AK SE RE LE VSrc VSink SK RK PK Ev)
    (asset_id : Option Id)
    (source_accounts : List Acct) (source_values : List V)
    (sink_accounts : List Acct) (sink_values : List V) :
    (∀ c ∈ (TransferPost.check_public_participants L asset_id source_accounts source_values
        sink_accounts sink_values).2,
      c = LedgerCall.checkSourceAccounts ∨ c = LedgerCall.checkSinkAccounts)
    ∧ ((TransferPost.check_public_participants L asset_id source_accounts source_values
          sink_accounts sink_values).1 = .error TransferPostError.invalidShape →
        (TransferPost.check_public_participants L asset_id source_accounts source_values
          sink_accounts sink_values).2 = [])
    ∧ (∀ e, (TransferPost.check_public_participants L asset_id source_accounts source_values
          sink_accounts sink_values).1 = .error e →
        e = TransferPostError.invalidShape
          ∨ (∃ a, e = TransferPostError.invalidSourceAccount a)
          ∨ (∃ a, e = TransferPostError.invalidSinkAccount a)) := by
  by_cases h1 : has_public_participants source_values.length sink_values.length ≠ asset_id.isSome
  · have key : TransferPost.check_public_participants L asset_id source_accounts source_values
        sink_accounts sink_values = (.error TransferPostError.invalidShape, []) := by
      simp [TransferPost.check_public_participants, h1]
    rw [key]
    refine ⟨by simp, fun _ => rfl, fun e he => ?_⟩
    injection he with h
    exact Or.inl h.symm
  by_cases h2 : source_accounts.length ≠ source_values.length
  · have key : TransferPost.check_public_participants L asset_id source_accounts source_values
        sink_accounts sink_values = (.error TransferPostError.invalidShape, []) := by
      simp [TransferPost.check_public_participants, h1, h2]
    rw [key]
    refine ⟨by simp, fun _ => rfl, fun e he => ?_⟩
    injection he with h
    exact Or.inl h.symm
  by_cases h3 : sink_accounts.length ≠ sink_values.length
  · have key : TransferPost.check_public_participants L asset_id source_accounts source_values
        sink_accounts sink_values = (.error TransferPostError.invalidShape, []) := by
      simp [TransferPost.check_public_participants, h1, h2, h3]
    rw [key]
    refine ⟨by simp, fun _ => rfl, fun e he => ?_⟩
    injection he with h
    exact Or.inl h.symm
  have h2' : source_accounts.length = source_values.length := not_ne_iff.mp h2
  have h3' : sink_accounts.length = sink_values.length := not_ne_iff.mp h3
  rcases ha : asset_id with _ | aid
  · have h1' : has_public_participants source_values.length sink_values.length = false := by
      rw [ha] at h1
      simpa using not_ne_iff.mp h1
    have key : TransferPost.check_public_participants L none source_accounts source_values
        sink_accounts sink_values = (.ok ([], []), []) := by
      simp [TransferPost.check_public_participants, h1', h2', h3']
    rw [key]
    exact ⟨by simp, fun h => Except.noConfusion h, fun e he => Except.noConfusion he⟩
  · have h1' : has_public_participants source_values.length sink_values.length = true := by
      rw [ha] at h1
      simpa using not_ne_iff.mp h1
    by_cases h4 : source_values.length > 0
    · cases hcs : L.check_source_accounts aid (source_accounts.zip source_values) with
      | error a =>
          have key : TransferPost.check_public_participants L (some aid) source_accounts
              source_values sink_accounts sink_values
              = (.error (TransferPostError.invalidSourceAccount a),
                  [LedgerCall.checkSourceAccounts]) := by
            simp [TransferPost.check_public_participants, h1', h2', h3', h4, hcs]
          rw [key]
          refine ⟨by simp, fun h => ?_, fun e he => ?_⟩
          · injection h with h
            exact absurd h (by simp)
          · injection he with h
            exact Or.inr (Or.inl ⟨a, h.symm⟩)
      | ok vs =>
          by_cases h5 : sink_values.length > 0
          · cases hks : L.check_sink_accounts aid (sink_accounts.zip sink_values) with
            | error a =>
                have key : TransferPost.check_public_participants L (some aid) source_accounts
                    source_values sink_accounts sink_values
                    = (.error (TransferPostError.invalidSinkAccount a),
                        [LedgerCall.checkSourceAccounts, LedgerCall.checkSinkAccounts]) := by
                  simp [TransferPost.check_public_participants, h1', h2', h3', h4, hcs, h5, hks]
                rw [key]
                refine ⟨by simp, fun h => ?_, fun e he => ?_⟩
                · injection h with h
                  exact absurd h (by simp)
                · injection he with h
                  exact Or.inr (Or.inr ⟨a, h.symm⟩)
            | ok ws =>
                have key : TransferPost.check_public_participants L (some aid) source_accounts
                    source_values sink_accounts sink_values
                    = (.ok (vs, ws),
                        [LedgerCall.checkSourceAccounts, LedgerCall.checkSinkAccounts]) := by
                  simp [TransferPost.check_public_participants, h1', h2', h3', h4, hcs, h5, hks]
                rw [key]
                exact ⟨by simp, fun h => Except.noConfusion h,
                  fun e he => Except.noConfusion he⟩
          · have key : TransferPost.check_public_participants L (some aid) source_accounts
                source_values sink_accounts sink_values
                = (.ok (vs, []), [LedgerCall.checkSourceAccounts]) := by
              simp [TransferPost.check_public_participants, h1', h2', h3', h4, hcs, h5]
            rw [key]
            exact ⟨by simp, fun h => Except.noConfusion h, fun e he => Except.noConfusion he⟩
    · by_cases h5 : sink_values.length > 0
      · cases hks : L.check_sink_accounts aid (sink_accounts.zip sink_values) with
        | error a =>
            have key : TransferPost.check_public_participants L (some aid) source_accounts
                source_values sink_accounts sink_values
                = (.error (TransferPostError.invalidSinkAccount a),
                    [LedgerCall.checkSinkAccounts]) := by
              simp [TransferPost.check_public_participants, h1', h2', h3', h4, h5, hks]
            rw [key]
            refine ⟨by simp, fun h => ?_, fun e he => ?_⟩
            · injection h with h
              exact absurd h (by simp)
            · injection he with h
              exact Or.inr (Or.inr ⟨a, h.symm⟩)
        | ok ws =>
            have key : TransferPost.check_public_participants L (some aid) source_accounts
                source_values sink_accounts sink_values
                = (.ok ([], ws), [LedgerCall.checkSinkAccounts]) := by
              simp [TransferPost.check_public_participants, h1', h2', h3', h4, h5, hks]
            rw [key]
            exact ⟨by simp, fun h => Except.noConfusion h, fun e he => Except.noConfusion he⟩
      · have key : TransferPost.check_public_participants L (some aid) source_accounts
            source_values sink_accounts sink_values
            = (.ok ([], []), []) := by
          simp [TransferPost.check_public_participants, h1', h2', h3', h4, h5]
        rw [key]
        exact ⟨by simp, fun h => Except.noConfusion h, fun e he => Except.noConfusion he⟩

/-- C4 counterexample: on a concrete post with one public source and two
related sender nullifiers, `validate` rejects with `DuplicateSpend` only
*after* calling the ledger method `check_source_accounts`, refuting the claim
that `DuplicateSpend` rejections happen before any ledger call. -/
theorem C4_structural_before_ledger_counterexample :
    (TransferPost.validate (fun _ _ _ => true) (fun a b => a == b) (fun a b => a == b)
        okLedger dupPost [0] []).1 = .error TransferPostError.duplicateSpend
    ∧ (TransferPost.validate (fun _ _ _ => true) (fun a b => a == b) (fun a b => a == b)
        okLedger dupPost [0] []).2 = [LedgerCall.checkSourceAccounts] := by
  constructor <;> rfl

/-- C4 (amended): whenever `validate` rejects with `InvalidShape` it has
performed no ledger call, and whenever it rejects with `DuplicateSpend` or
`DuplicateMint` every ledger call it has performed is a source- or
sink-account check — in particular no sender/receiver validation and no proof
check has run — provided the ledger's error conversion does not itself produce
these structural variants. -/
theorem C4_structural_error_ordering_amended
    {Acct Id V N Output U Pf AK SigV SE RE LE VSrc VSink SK RK PK Ev : Type}
    (verify : AuthorizationSignature AK SigV → TransferPostBody Id V N Output U Pf →
      List Acct → Bool)
    (nullifier_related : N → N → Bool) (utxo_related : U → U → Bool)
    (L : TransferLedger Acct Id V N Output U Pf AK SE RE LE VSrc VSink SK RK PK Ev)
    (post : TransferPost Acct Id V N Output U Pf AK SigV)
    (source_accounts sink_accounts : List Acct)
    (hinto : ∀ e, L.into_post_error e ≠ TransferPostError.invalidShape
        ∧ L.into_post_error e ≠ TransferPostError.duplicateSpend
        ∧ L.into_post_error e ≠ TransferPostError.duplicateMint) :
    ((TransferPost.validate verify nullifier_related utxo_related L post source_accounts
        sink_accounts).1 = .error TransferPostError.invalidShape →
      (TransferPost.validate verify nullifier_related utxo_related L post source_accounts
        sink_accounts).2 = [])
    ∧ (((TransferPost.validate verify nullifier_related utxo_related L post source_accounts
          sink_accounts).1 = .error TransferPostError.duplicateSpend
        ∨ (TransferPost.validate verify nullifier_related utxo_related L post source_accounts
          sink_accounts).1 = .error TransferPostError.duplicateMint) →
        ∀ c ∈ (TransferPost.validate verify nullifier_related utxo_related L post
            source_accounts sink_accounts).2,
          c = LedgerCall.checkSourceAccounts ∨ c = LedgerCall.checkSinkAccounts) := by
  cases hvas : TransferPost.has_valid_authorization_signature verify post with
  | error e =>
      have key : TransferPost.validate verify nullifier_related utxo_related L post
          source_accounts sink_accounts
          = (.error (TransferPostError.invalidAuthorizationSignature e), []) := by
        unfold TransferPost.validate
        rw [hvas]
      rw [key]
      exact ⟨fun _ => rfl, fun _ c hc => absurd hc (by simp)⟩
  | ok u =>
      obtain ⟨hlog, hshape, herr⟩ := check_public_participants_facts L post.body.asset_id
        source_accounts post.body.sources sink_accounts post.body.sinks
      rcases hpp : TransferPost.check_public_participants L post.body.asset_id
          source_accounts post.body.sources sink_accounts post.body.sinks with ⟨r, log⟩
      rw [hpp] at hlog hshape herr
      cases r with
      | error e =>
          have key : TransferPost.validate verify nullifier_related utxo_related L post
              source_accounts sink_accounts = (.error e, log) := by
            unfold TransferPost.validate
            rw [hvas, hpp]
          rw [key]
          constructor
          · intro h
            injection h with h
            exact hshape (by rw [h])
          · intro _ c hc
            exact hlog c hc
      | ok keys =>
          obtain ⟨source_keys, sink_keys⟩ := keys
          cases hdup1 : all_unequal post.body.sender_posts
              (fun p q => nullifier_related p.nullifier q.nullifier) with
          | false =>
              have key : TransferPost.validate verify nullifier_related utxo_related L post
                  source_accounts sink_accounts
                  = (.error TransferPostError.duplicateSpend, log) := by
                unfold TransferPost.validate
                rw [hvas, hpp, hdup1]
                rfl
              rw [key]
              constructor
              · intro h
                injection h with h
                exact absurd h (by simp)
              · intro _ c hc
                exact hlog c hc
          | true =>
              cases hdup2 : all_unequal post.body.receiver_posts
                  (fun p q => utxo_related p.utxo q.utxo) with
              | false =>
                  have key : TransferPost.validate verify nullifier_related utxo_related L post
                      source_accounts sink_accounts
                      = (.error TransferPostError.duplicateMint, log) := by
                    unfold TransferPost.validate
                    rw [hvas, hpp, hdup1, hdup2]
                    rfl
                  rw [key]
                  constructor
                  · intro h
                    injection h with h
                    exact absurd h (by simp)
                  · intro _ c hc
                    exact hlog c hc
              | true =>
                  rcases hsv : validate_all L.validate_sender LedgerCall.validateSender
                      post.body.sender_posts with ⟨rs, slog⟩
                  cases rs with
                  | error e =>
                      have key : TransferPost.validate verify nullifier_related utxo_related L
                          post source_accounts sink_accounts
                          = (.error (TransferPostError.sender e), log ++ slog) := by
                        unfold TransferPost.validate
                        rw [hvas, hpp, hdup1, hdup2, hsv]
                        rfl
                      rw [key]
                      constructor
                      · intro h
                        injection h with h
                        exact absurd h (by simp)
                      · rintro (h | h) <;> injection h with h <;> exact absurd h (by simp)
                  | ok sender_keys =>
                      rcases hrv : validate_all L.validate_receiver LedgerCall.validateReceiver
                          post.body.receiver_posts with ⟨rr, rlog⟩
                      cases rr with
                      | error e =>
                          have key : TransferPost.validate verify nullifier_related utxo_related
                              L post source_accounts sink_accounts
                              = (.error (TransferPostError.receiver e),
                                  log ++ slog ++ rlog) := by
                            unfold TransferPost.validate
                            rw [hvas, hpp, hdup1, hdup2, hsv, hrv]
                            rfl
                          rw [key]
                          constructor
                          · intro h
                            injection h with h
                            exact absurd h (by simp)
                          · rintro (h | h) <;> injection h with h <;> exact absurd h (by simp)
                      | ok receiver_keys =>
                          cases hiv : L.is_valid
                              { authorization_key :=
                                  post.authorization_signature.map
                                    AuthorizationSignature.authorization_key
                                asset_id := post.body.asset_id
                                sources := source_keys
                                senders := sender_keys
                                receivers := receiver_keys
                                sinks := sink_keys
                                proof := post.body.proof } with
                          | error e =>
                              have key : TransferPost.validate verify nullifier_related
                                  utxo_related L post source_accounts sink_accounts
                                  = (.error (L.into_post_error e),
                                      log ++ slog ++ rlog ++ [LedgerCall.isValid]) := by
                                unfold TransferPost.validate
                                rw [hvas, hpp, hdup1, hdup2, hsv, hrv]
                                simp only [hiv]
                                rfl
                              rw [key]
                              constructor
                              · intro h
                                injection h with h
                                exact absurd h (hinto e).1
                              · rintro (h | h) <;> injection h with h
                                · exact absurd h (hinto e).2.1
                                · exact absurd h (hinto e).2.2
                          | ok pe =>
                              obtain ⟨pk, ev⟩ := pe
                              have key : TransferPost.validate verify nullifier_related
                                  utxo_related L post source_accounts sink_accounts
                                  = (.ok
                                      { asset_id := post.body.asset_id
                                        source_posting_keys := source_keys
                                        sender_posting_keys := sender_keys
                                        receiver_posting_keys := receiver_keys
                                        sink_posting_keys := sink_keys
                                        proof := pk
                                        event := ev },
                                      log ++ slog ++ rlog ++ [LedgerCall.isValid]) := by
                                unfold TransferPost.validate
                                rw [hvas, hpp, hdup1, hdup2, hsv, hrv]
                                simp only [hiv]
                                rfl
                              rw [key]
                              constructor
                              · intro h
                                exact Except.noConfusion h
                              · rintro (h | h) <;> exact Except.noConfusion h

/-- C4 (amended) witness: a concrete shape mismatch (one source value but no
source account supplied) is rejected with `InvalidShape` and an empty ledger
log. -/
theorem C4_structural_error_ordering_amended_witness :
    (TransferPost.validate (fun _ _ _ => true) (fun a b => a == b) (fun a b => a == b)
        okLedger dupPost [] []).1 = .error TransferPostError.invalidShape
    ∧ (TransferPost.validate (fun _ _ _ => true) (fun a b => a == b) (fun a b => a == b)
        okLedger dupPost [] []).2 = [] := by
  refine ⟨rfl, ?_⟩
  exact (C4_structural_error_ordering_amended (fun _ _ _ => true) (fun a b => a == b)
    (fun a b => a == b) okLedger dupPost [] []
    (fun _ => ⟨fun h => by simp [okLedger] at h, fun h => by simp [okLedger] at h,
      fun h => by simp [okLedger] at h⟩)).1 rfl

/-- C5: for a post that passes the authorization-signature and
public-participant checks (and a ledger whose error conversion does not
produce the duplicate variants), `validate` returns `DuplicateSpend` exactly
when two distinct sender posts carry related nullifiers, and — when no sender
nullifiers are related — returns `DuplicateMint` exactly when two distinct
receiver posts carry related UTXOs. -/
theorem C5_duplicate_detection
    {Acct Id V N Output U Pf AK SigV SE RE LE VSrc VSink SK RK PK Ev : Type}
    (verify : AuthorizationSignature AK SigV → TransferPostBody Id V N Output U Pf →
      List Acct → Bool)
    (nullifier_related : N → N → Bool) (utxo_related : U → U → Bool)
    (L : TransferLedger Acct Id V N Output U Pf AK SE RE LE VSrc VSink SK RK PK Ev)
    (post : TransferPost Acct Id V N Output U Pf AK SigV)
    (source_accounts sink_accounts : List Acct)
    (hsig : TransferPost.has_valid_authorization_signature verify post = .ok ())
    (hpub : ∃ keys log, TransferPost.check_public_participants L post.body.asset_id
        source_accounts post.body.sources sink_accounts post.body.sinks = (.ok keys, log))
    (hinto : ∀ e, L.into_post_error e ≠ TransferPostError.duplicateSpend
        ∧ L.into_post_error e ≠ TransferPostError.duplicateMint) :
    ((TransferPost.validate verify nullifier_related utxo_related L post source_accounts
        sink_accounts).1 = .error TransferPostError.duplicateSpend
      ↔ ∃ i j : Fin post.body.sender_posts.length, i < j
          ∧ nullifier_related (post.body.sender_posts.get i).nullifier
              (post.body.sender_posts.get j).nullifier = true)
    ∧ ((∀ i j : Fin post.body.sender_posts.length, i < j →
          nullifier_related (post.body.sender_posts.get i).nullifier
            (post.body.sender_posts.get j).nullifier = false) →
        ((TransferPost.validate verify nullifier_related utxo_related L post source_accounts
            sink_accounts).1 = .error TransferPostError.duplicateMint
          ↔ ∃ i j : Fin post.body.receiver_posts.length, i < j
              ∧ utxo_related (post.body.receiver_posts.get i).utxo
                  (post.body.receiver_posts.get j).utxo = true)) := by
  obtain ⟨keys, log, hpp⟩ := hpub
  obtain ⟨source_keys, sink_keys⟩ := keys
  cases hdup1 : all_unequal post.body.sender_posts
      (fun p q => nullifier_related p.nullifier q.nullifier) with
  | false =>
      have key : TransferPost.validate verify nullifier_related utxo_related L post
          source_accounts sink_accounts
          = (.error TransferPostError.duplicateSpend, log) := by
        unfold TransferPost.validate
        rw [hsig, hpp, hdup1]
        rfl
      have hex := (all_unequal_eq_false_iff post.body.sender_posts
        (fun p q => nullifier_related p.nullifier q.nullifier)).mp hdup1
      constructor
      · rw [key]
        exact iff_of_true rfl hex
      · intro hall
        have : all_unequal post.body.sender_posts
            (fun p q => nullifier_related p.nullifier q.nullifier) = true :=
          (all_unequal_eq_true_iff _ _).mpr (List.pairwise_iff_get.mpr hall)
        rw [hdup1] at this
        exact Bool.noConfusion this
  | true =>
      have hnosender : ¬∃ i j : Fin post.body.sender_posts.length, i < j
          ∧ nullifier_related (post.body.sender_posts.get i).nullifier
              (post.body.sender_posts.get j).nullifier = true := by
        intro hex
        have := (all_unequal_eq_false_iff post.body.sender_posts
          (fun p q => nullifier_related p.nullifier q.nullifier)).mpr hex
        rw [hdup1] at this
        exact Bool.noConfusion this
      cases hdup2 : all_unequal post.body.receiver_posts
          (fun p q => utxo_related p.utxo q.utxo) with
      | false =>
          have key : TransferPost.validate verify nullifier_related utxo_related L post
              source_accounts sink_accounts
              = (.error TransferPostError.duplicateMint, log) := by
            unfold TransferPost.validate
            rw [hsig, hpp, hdup1, hdup2]
            rfl
          have hex := (all_unequal_eq_false_iff post.body.receiver_posts
            (fun p q => utxo_related p.utxo q.utxo)).mp hdup2
          constructor
          · rw [key]
            refine iff_of_false (fun h => ?_) hnosender
            injection h with h
            exact absurd h (by simp)
          · intro _
            rw [key]
            exact iff_of_true rfl hex
      | true =>
          have hnoreceiver : ¬∃ i j : Fin post.body.receiver_posts.length, i < j
              ∧ utxo_related (post.body.receiver_posts.get i).utxo
                  (post.body.receiver_posts.get j).utxo = true := by
            intro hex
            have := (all_unequal_eq_false_iff post.body.receiver_posts
              (fun p q => utxo_related p.utxo q.utxo)).mpr hex
            rw [hdup2] at this
            exact Bool.noConfusion this
          have hnot : (TransferPost.validate verify nullifier_related utxo_related L post
              source_accounts sink_accounts).1 ≠ .error TransferPostError.duplicateSpend
            ∧ (TransferPost.validate verify nullifier_related utxo_related L post
              source_accounts sink_accounts).1 ≠ .error TransferPostError.duplicateMint := by
            rcases hsv : validate_all L.validate_sender LedgerCall.validateSender
                post.body.sender_posts with ⟨rs, slog⟩
            cases rs with
            | error e =>
                have key : TransferPost.validate verify nullifier_related utxo_related L post
                    source_accounts sink_accounts
                    = (.error (TransferPostError.sender e), log ++ slog) := by
                  unfold TransferPost.validate
                  rw [hsig, hpp, hdup1, hdup2, hsv]
                  rfl
                rw [key]
                exact ⟨fun h => by injection h with h; exact absurd h (by simp),
                  fun h => by injection h with h; exact absurd h (by simp)⟩
            | ok sender_keys =>
                rcases hrv : validate_all L.validate_receiver LedgerCall.validateReceiver
                    post.body.receiver_posts with ⟨rr, rlog⟩
                cases rr with
                | error e =>
                    have key : TransferPost.validate verify nullifier_related utxo_related L
                        post source_accounts sink_accounts
                        = (.error (TransferPostError.receiver e), log ++ slog ++ rlog) := by
                      unfold TransferPost.validate
                      rw [hsig, hpp, hdup1, hdup2, hsv, hrv]
                      rfl
                    rw [key]
                    exact ⟨fun h => by injection h with h; exact absurd h (by simp),
                      fun h => by injection h with h; exact absurd h (by simp)⟩
                | ok receiver_keys =>
                    cases hiv : L.is_valid
                        { authorization_key :=
                            post.authorization_signature.map
                              AuthorizationSignature.authorization_key
                          asset_id := post.body.asset_id
                          sources := source_keys
                          senders := sender_keys
                          receivers := receiver_keys
                          sinks := sink_keys
                          proof := post.body.proof } with
                    | error e =>
                        have key : TransferPost.validate verify nullifier_related utxo_related
                            L post source_accounts sink_accounts
                            = (.error (L.into_post_error e),
                                log ++ slog ++ rlog ++ [LedgerCall.isValid]) := by
                          unfold TransferPost.validate
                          rw [hsig, hpp, hdup1, hdup2, hsv, hrv]
                          simp only [hiv]
                          rfl
                        rw [key]
                        exact ⟨fun h => by injection h with h; exact absurd h (hinto e).1,
                          fun h => by injection h with h; exact absurd h (hinto e).2⟩
                    | ok pe =>
                        obtain ⟨pk, ev⟩ := pe
                        have key : TransferPost.validate verify nullifier_related utxo_related
                            L post source_accounts sink_accounts
                            = (.ok
                                { asset_id := post.body.asset_id
                                  source_posting_keys := source_keys
                                  sender_posting_keys := sender_keys
                                  receiver_posting_keys := receiver_keys
                                  sink_posting_keys := sink_keys
                                  proof := pk
                                  event := ev },
                                log ++ slog ++ rlog ++ [LedgerCall.isValid]) := by
                          unfold TransferPost.validate
                          rw [hsig, hpp, hdup1, hdup2, hsv, hrv]
                          simp only [hiv]
                          rfl
                        rw [key]
                        exact ⟨fun h => Except.noConfusion h, fun h => Except.noConfusion h⟩
          exact ⟨iff_of_false hnot.1 hnosender, fun _ => iff_of_false hnot.2 hnoreceiver⟩

/-- C5 witness: the concrete post with two equal nullifiers is rejected with
`DuplicateSpend`. -/
theorem C5_duplicate_detection_witness :
    (TransferPost.validate (fun _ _ _ => true) (fun a b => a == b) (fun a b => a == b)
        okLedger dupPost [0] []).1 = .error TransferPostError.duplicateSpend :=
  (C5_duplicate_detection (fun _ _ _ => true) (fun a b => a == b) (fun a b => a == b)
    okLedger dupPost [0] [] rfl ⟨([5], []), [LedgerCall.checkSourceAccounts], rfl⟩
    (fun _ => ⟨fun h => by simp [okLedger] at h,
      fun h => by simp [okLedger] at h⟩)).1.mpr
    ⟨⟨0, by decide⟩, ⟨1, by decide⟩, by decide, by decide⟩

/-- C6: `TransferPostingKey::post` performs the ledger mutations in exactly the
order: all sender posting keys (spends), then all receiver posting keys
(registrations), then — exactly when the key holds a public asset id — one
`update_public_balances` call with the validated source and sink tokens and
the valid-proof marker; on success it returns the event captured at
validation.  With no public asset id, `update_public_balances` is never
called, in failing runs included. -/
theorem C6_posting_key_post_order {Id VSrc VSink SK RK PK Ev LE : Type}
    (L : MutationLedger Id VSrc VSink SK RK PK LE)
    (k : TransferPostingKey Id VSrc SK RK VSink PK Ev) :
    ((∀ sk ∈ k.sender_posting_keys, L.spend k.proof sk = .ok ()) →
      (∀ rk ∈ k.receiver_posting_keys, L.register k.proof rk = .ok ()) →
      (∀ aid, k.asset_id = some aid →
        L.update_public_balances aid k.source_posting_keys k.sink_posting_keys k.proof
          = .ok ()) →
      TransferPostingKey.post L k
        = (.ok k.event,
            k.sender_posting_keys.map MutationCall.spend
              ++ k.receiver_posting_keys.map MutationCall.register
              ++ (match k.asset_id with
                  | some aid => [MutationCall.updatePublicBalances aid
                      k.source_posting_keys k.sink_posting_keys k.proof]
                  | none => [])))
    ∧ (k.asset_id = none →
        ∀ c ∈ (TransferPostingKey.post L k).2, c.isUpdatePublicBalances = false) := by
  constructor
  · intro hs hr hu
    have hspend := post_all_ok (L.spend k.proof)
      (MutationCall.spend : SK → MutationCall Id VSrc VSink SK RK PK)
      k.sender_posting_keys hs
    have hreg := post_all_ok (L.register k.proof)
      (MutationCall.register : RK → MutationCall Id VSrc VSink SK RK PK)
      k.receiver_posting_keys hr
    unfold TransferPostingKey.post
    dsimp only
    rw [hspend, hreg]
    cases ha : k.asset_id with
    | some aid =>
        simp only [hu aid ha]
    | none => simp
  · intro ha c hc
    unfold TransferPostingKey.post at hc
    dsimp only at hc
    rcases hps : post_all (L.spend k.proof)
        (MutationCall.spend : SK → MutationCall Id VSrc VSink SK RK PK)
        k.sender_posting_keys
      with ⟨rs, slog⟩
    rw [hps] at hc
    have hslog : ∀ c ∈ slog, ∃ x, c = MutationCall.spend x := by
      intro c hc2
      have := post_all_log_shape (L.spend k.proof)
        (MutationCall.spend : SK → MutationCall Id VSrc VSink SK RK PK)
        k.sender_posting_keys c
      rw [hps] at this
      exact this hc2
    cases rs with
    | error e =>
        simp only at hc
        obtain ⟨x, hx⟩ := hslog c hc
        rw [hx]
        rfl
    | ok u =>
        rcases hpr : post_all (L.register k.proof)
            (MutationCall.register : RK → MutationCall Id VSrc VSink SK RK PK)
            k.receiver_posting_keys with ⟨rr, rlog⟩
        rw [hpr] at hc
        have hrlog : ∀ c ∈ rlog, ∃ x, c = MutationCall.register x := by
          intro c hc2
          have := post_all_log_shape (L.register k.proof)
            (MutationCall.register : RK → MutationCall Id VSrc VSink SK RK PK)
            k.receiver_posting_keys c
          rw [hpr] at this
          exact this hc2
        cases rr with
        | error e =>
            simp only at hc
            rw [List.mem_append] at hc
            rcases hc with hc | hc
            · obtain ⟨x, hx⟩ := hslog c hc
              rw [hx]
              rfl
            · obtain ⟨x, hx⟩ := hrlog c hc
              rw [hx]
              rfl
        | ok u2 =>
            rw [ha] at hc
            simp only at hc
            rw [List.mem_append] at hc
            rcases hc with hc | hc
            · obtain ⟨x, hx⟩ := hslog c hc
              rw [hx]
              rfl
            · obtain ⟨x, hx⟩ := hrlog c hc
              rw [hx]
              rfl

/-- C6 witness: the concrete posting key with asset id `3`, two sender keys,
one receiver key, posts in the canonical order and returns the captured
event `42`. -/
theorem C6_posting_key_post_order_witness :
    TransferPostingKey.post okMutationLedger samplePostingKey
      = (.ok 42,
          [MutationCall.spend 1, MutationCall.spend 2, MutationCall.register 4,
            MutationCall.updatePublicBalances 3 [10] [20] 9]) := by
  have h := (C6_posting_key_post_order okMutationLedger samplePostingKey).1
    (fun _ _ => rfl) (fun _ _ => rfl) (fun _ _ => rfl)
  exact h

/-- C9: `identity_verification` succeeds exactly when all five checks hold —
(1) the post has the ToPublic shape, (2) its sink-account list is exactly
`[public_account]`, (3) its authorization signature is valid, (4) its validity
proof verifies, and (5) the UTXO reconstructed from (identifier, asset,
address), hashed and inserted alone into a fresh accumulator, yields the
accumulator output used by some sender post — and each failing check, in this
order, returns its dedicated variant: `InvalidShape`, `InvalidSinkAccount`,
`InvalidSignature`, `InvalidProof`, `InconsistentUtxoAccumulatorOutput`. -/
theorem C9_identity_verification_checks
    {Acct Id V N Output U Pf AK SigV PE Idf Asset Addr Utxo Item : Type}
    [DecidableEq Acct] [DecidableEq Output]
    (from_post : TransferPost Acct Id V N Output U Pf AK SigV → Option TransferShape)
    (verify : AuthorizationSignature AK SigV → TransferPostBody Id V N Output U Pf →
      List Acct → Bool)
    (ps_verify : List (PIItem AK Id V (SenderPost N Output) (ReceiverPost U)) →
      Pf → Except PE Bool)
    (utxo_reconstruct : Asset → Idf → Addr → Utxo)
    (item_hash : Utxo → Item)
    (fresh_output : Item → Output)
    (transfer_post : TransferPost Acct Id V N Output U Pf AK SigV)
    (virtual_asset : IdentifiedAsset Idf Asset)
    (address : Addr)
    (public_account : Acct) :
    (identity_verification from_post verify ps_verify utxo_reconstruct item_hash fresh_output
        transfer_post virtual_asset address public_account = .ok ()
      ↔ (from_post transfer_post = some TransferShape.toPublic
          ∧ transfer_post.sink_accounts = [public_account]
          ∧ TransferPost.has_valid_authorization_signature verify transfer_post = .ok ()
          ∧ TransferPost.has_valid_proof ps_verify transfer_post = .ok true
          ∧ ∃ sp ∈ transfer_post.body.sender_posts,
              sp.utxo_accumulator_output
                = fresh_output (item_hash (utxo_reconstruct virtual_asset.asset
                    virtual_asset.identifier address))))
    ∧ (identity_verification from_post verify ps_verify utxo_reconstruct item_hash fresh_output
          transfer_post virtual_asset address public_account
          = .error IdentityVerificationError.invalidShape
        ↔ ¬(from_post transfer_post = some TransferShape.toPublic))
    ∧ (identity_verification from_post verify ps_verify utxo_reconstruct item_hash fresh_output
          transfer_post virtual_asset address public_account
          = .error IdentityVerificationError.invalidSinkAccount
        ↔ (from_post transfer_post = some TransferShape.toPublic
            ∧ ¬(transfer_post.sink_accounts = [public_account])))
    ∧ (identity_verification from_post verify ps_verify utxo_reconstruct item_hash fresh_output
          transfer_post virtual_asset address public_account
          = .error IdentityVerificationError.invalidSignature
        ↔ (from_post transfer_post = some TransferShape.toPublic
            ∧ transfer_post.sink_accounts = [public_account]
            ∧ ¬(TransferPost.has_valid_authorization_signature verify transfer_post
                = .ok ())))
    ∧ (identity_verification from_post verify ps_verify utxo_reconstruct item_hash fresh_output
          transfer_post virtual_asset address public_account
          = .error IdentityVerificationError.invalidProof
        ↔ (from_post transfer_post = some TransferShape.toPublic
            ∧ transfer_post.sink_accounts = [public_account]
            ∧ TransferPost.has_valid_authorization_signature verify transfer_post = .ok ()
            ∧ ¬(TransferPost.has_valid_proof ps_verify transfer_post = .ok true)))
    ∧ (identity_verification from_post verify ps_verify utxo_reconstruct item_hash fresh_output
          transfer_post virtual_asset address public_account
          = .error IdentityVerificationError.inconsistentUtxoAccumulatorOutput
        ↔ (from_post transfer_post = some TransferShape.toPublic
            ∧ transfer_post.sink_accounts = [public_account]
            ∧ TransferPost.has_valid_authorization_signature verify transfer_post = .ok ()
            ∧ TransferPost.has_valid_proof ps_verify transfer_post = .ok true
            ∧ ¬∃ sp ∈ transfer_post.body.sender_posts,
                sp.utxo_accumulator_output
                  = fresh_output (item_hash (utxo_reconstruct virtual_asset.asset
                      virtual_asset.identifier address)))) := by
  cases hfp : from_post transfer_post with
  | none =>
      have key : identity_verification from_post verify ps_verify utxo_reconstruct item_hash
          fresh_output transfer_post virtual_asset address public_account
          = .error IdentityVerificationError.invalidShape := by
        unfold identity_verification
        rw [hfp]
      have hno1 : ¬((none : Option TransferShape) = some TransferShape.toPublic) :=
        fun hc => Option.noConfusion hc
      rw [key]
      exact ⟨iff_of_false (by simp) (fun h => hno1 h.1),
        iff_of_true rfl hno1,
        iff_of_false (by simp) (fun h => hno1 h.1),
        iff_of_false (by simp) (fun h => hno1 h.1),
        iff_of_false (by simp) (fun h => hno1 h.1),
        iff_of_false (by simp) (fun h => hno1 h.1)⟩
  | some shape =>
      cases shape with
      | privateTransfer =>
          have key : identity_verification from_post verify ps_verify utxo_reconstruct
              item_hash fresh_output transfer_post virtual_asset address public_account
              = .error IdentityVerificationError.invalidShape := by
            unfold identity_verification
            rw [hfp]
          have hno1 : ¬(some TransferShape.privateTransfer = some TransferShape.toPublic) := by
            intro hc
            injection hc with hc
            exact TransferShape.noConfusion hc
          rw [key]
          exact ⟨iff_of_false (by simp) (fun h => hno1 h.1),
            iff_of_true rfl hno1,
            iff_of_false (by simp) (fun h => hno1 h.1),
            iff_of_false (by simp) (fun h => hno1 h.1),
            iff_of_false (by simp) (fun h => hno1 h.1),
            iff_of_false (by simp) (fun h => hno1 h.1)⟩
      | toPrivate =>
          have key : identity_verification from_post verify ps_verify utxo_reconstruct
              item_hash fresh_output transfer_post virtual_asset address public_account
              = .error IdentityVerificationError.invalidShape := by
            unfold identity_verification
            rw [hfp]
          have hno1 : ¬(some TransferShape.toPrivate = some TransferShape.toPublic) := by
            intro hc
            injection hc with hc
            exact TransferShape.noConfusion hc
          rw [key]
          exact ⟨iff_of_false (by simp) (fun h => hno1 h.1),
            iff_of_true rfl hno1,
            iff_of_false (by simp) (fun h => hno1 h.1),
            iff_of_false (by simp) (fun h => hno1 h.1),
            iff_of_false (by simp) (fun h => hno1 h.1),
            iff_of_false (by simp) (fun h => hno1 h.1)⟩
      | toPublic =>
          by_cases h2 : transfer_post.sink_accounts = [public_account]
          · cases hvs : TransferPost.has_valid_authorization_signature verify
                transfer_post with
            | error e =>
                have key : identity_verification from_post verify ps_verify utxo_reconstruct
                    item_hash fresh_output transfer_post virtual_asset address public_account
                    = .error IdentityVerificationError.invalidSignature := by
                  unfold identity_verification
                  rw [hfp]
                  simp [h2, hvs]
                rw [key]
                exact ⟨iff_of_false (by simp) (fun h => Except.noConfusion h.2.2.1),
                  iff_of_false (by simp) (fun hno => hno rfl),
                  iff_of_false (by simp) (fun h => h.2 h2),
                  iff_of_true rfl ⟨rfl, h2, fun hc => Except.noConfusion hc⟩,
                  iff_of_false (by simp) (fun h => Except.noConfusion h.2.2.1),
                  iff_of_false (by simp) (fun h => Except.noConfusion h.2.2.1)⟩
            | ok u =>
                cases u
                cases hvp : TransferPost.has_valid_proof ps_verify transfer_post with
                | error pe =>
                    have key : identity_verification from_post verify ps_verify
                        utxo_reconstruct item_hash fresh_output transfer_post virtual_asset
                        address public_account
                        = .error IdentityVerificationError.invalidProof := by
                      unfold identity_verification
                      rw [hfp]
                      simp [h2, hvs, hvp]
                    rw [key]
                    exact ⟨iff_of_false (by simp) (fun h => Except.noConfusion h.2.2.2.1),
                      iff_of_false (by simp) (fun hno => hno rfl),
                      iff_of_false (by simp) (fun h => h.2 h2),
                      iff_of_false (by simp) (fun h => h.2.2 rfl),
                      iff_of_true rfl ⟨rfl, h2, rfl, fun hc => Except.noConfusion hc⟩,
                      iff_of_false (by simp) (fun h => Except.noConfusion h.2.2.2.1)⟩
                | ok b =>
                    cases b with
                    | false =>
                        have key : identity_verification from_post verify ps_verify
                            utxo_reconstruct item_hash fresh_output transfer_post
                            virtual_asset address public_account
                            = .error IdentityVerificationError.invalidProof := by
                          unfold identity_verification
                          rw [hfp]
                          simp [h2, hvs, hvp]
                        have hno4 : ¬((Except.ok false : Except PE Bool) = Except.ok true) := by
                          intro hc
                          injection hc with hc
                          exact Bool.noConfusion hc
                        rw [key]
                        exact ⟨iff_of_false (by simp) (fun h => hno4 h.2.2.2.1),
                          iff_of_false (by simp) (fun hno => hno rfl),
                          iff_of_false (by simp) (fun h => h.2 h2),
                          iff_of_false (by simp) (fun h => h.2.2 rfl),
                          iff_of_true rfl ⟨rfl, h2, rfl, hno4⟩,
                          iff_of_false (by simp) (fun h => hno4 h.2.2.2.1)⟩
                    | true =>
                        cases hany : transfer_post.body.sender_posts.any
                            (fun sender_post =>
                              decide (sender_post.utxo_accumulator_output
                                = fresh_output (item_hash (utxo_reconstruct
                                    virtual_asset.asset virtual_asset.identifier
                                    address)))) with
                        | false =>
                            have key : identity_verification from_post verify ps_verify
                                utxo_reconstruct item_hash fresh_output transfer_post
                                virtual_asset address public_account
                                = .error
                                    IdentityVerificationError.inconsistentUtxoAccumulatorOutput
                                := by
                              unfold identity_verification
                              rw [hfp]
                              simp [h2, hvs, hvp, hany]
                            have hno5 : ¬∃ sp ∈ transfer_post.body.sender_posts,
                                sp.utxo_accumulator_output
                                  = fresh_output (item_hash (utxo_reconstruct
                                      virtual_asset.asset virtual_asset.identifier
                                      address)) := by
                              rintro ⟨sp, hsp, heq⟩
                              have hx : transfer_post.body.sender_posts.any
                                  (fun sender_post =>
                                    decide (sender_post.utxo_accumulator_output
                                      = fresh_output (item_hash (utxo_reconstruct
                                          virtual_asset.asset virtual_asset.identifier
                                          address)))) = true :=
                                List.any_eq_true.mpr ⟨sp, hsp, decide_eq_true heq⟩
                              rw [hany] at hx
                              exact Bool.noConfusion hx
                            rw [key]
                            exact ⟨iff_of_false (by simp) (fun h => hno5 h.2.2.2.2),
                              iff_of_false (by simp) (fun hno => hno rfl),
                              iff_of_false (by simp) (fun h => h.2 h2),
                              iff_of_false (by simp) (fun h => h.2.2 rfl),
                              iff_of_false (by simp) (fun h => h.2.2.2 rfl),
                              iff_of_true rfl ⟨rfl, h2, rfl, rfl, hno5⟩⟩
                        | true =>
                            have key : identity_verification from_post verify ps_verify
                                utxo_reconstruct item_hash fresh_output transfer_post
                                virtual_asset address public_account = .ok () := by
                              unfold identity_verification
                              rw [hfp]
                              simp [h2, hvs, hvp, hany]
                            have hc5 : ∃ sp ∈ transfer_post.body.sender_posts,
                                sp.utxo_accumulator_output
                                  = fresh_output (item_hash (utxo_reconstruct
                                      virtual_asset.asset virtual_asset.identifier
                                      address)) := by
                              obtain ⟨sp, hsp, hd⟩ := List.any_eq_true.mp hany
                              exact ⟨sp, hsp, of_decide_eq_true hd⟩
                            rw [key]
                            exact ⟨iff_of_true rfl ⟨rfl, h2, rfl, rfl, hc5⟩,
                              iff_of_false (by simp) (fun hno => hno rfl),
                              iff_of_false (by simp) (fun h => h.2 h2),
                              iff_of_false (by simp) (fun h => h.2.2 rfl),
                              iff_of_false (by simp) (fun h => h.2.2.2 rfl),
                              iff_of_false (by simp) (fun h => h.2.2.2.2 hc5)⟩
          · have key : identity_verification from_post verify ps_verify utxo_reconstruct
                item_hash fresh_output transfer_post virtual_asset address public_account
                = .error IdentityVerificationError.invalidSinkAccount := by
              unfold identity_verification
              rw [hfp]
              simp [h2]
            rw [key]
            exact ⟨iff_of_false (by simp) (fun h => h2 h.2.1),
              iff_of_false (by simp) (fun hno => hno rfl),
              iff_of_true rfl ⟨rfl, h2⟩,
              iff_of_false (by simp) (fun h => h2 h.2.1),
              iff_of_false (by simp) (fun h => h2 h.2.1),
              iff_of_false (by simp) (fun h => h2 h.2.1)⟩
